import Mathlib

/-!
# ChessGame / GameManager: a shallow embedding of the browser client

The client state of `web/static/js/chess.js` and `web/static/js/game.js` is
embedded as records; every handler becomes a pure function that takes the
replies of the remote service as explicit arguments (`Env`) and returns the
state the handler leaves behind, whether it returns or ends with an error it
does not catch.  The parts of the document the handlers write to are fields of
the same record, and the requests and messages a handler emits are appended to
logs kept in the state.  A repaint can throw, on a board key that does not
parse inside its selector, so `updateBoardDisplay` returns a `Completion`: the
state and the error, which its callers catch or let through as the code does.
-/

namespace ChessClient

/-! ## Values exchanged with the remote service -/

/-- Outcome of an awaited request: the parsed value, or the message of the
error that was thrown instead. -/
inductive Fetched (α : Type) where
  | ok (value : α)
  | threw (message : String)
deriving Repr

/-- A piece as the service reports it: `{piece, color}`, a piece letter and a
colour name. -/
structure PieceData where
  piece : String
  color : String
deriving DecidableEq, Repr

/-- The cached board: the entries of the JSON object, square name to
piece-or-empty (`none` is a falsy entry such as `null`). -/
abbrev Board := List (String × Option PieceData)

/-- JavaScript `this.board[square]`, seen through truthiness: the piece stored
under the key, `none` when the key is absent or its value is empty. -/
def Board.pieceAt (board : Board) (square : String) : Option PieceData :=
  (board.lookup square).join

/-- Reply of `GET /api/game/board`. -/
structure ServerData where
  board : Board
  turn : String
  game_over : Bool
  is_check : Bool
  result : Option String
deriving Repr

/-- Reply of `POST /api/game/move`. -/
structure MoveResult where
  success : Bool
  error : Option String
  ai_move : Option String
  game_over : Bool
  result : Option String
deriving Repr

/-- A request the client sends. -/
inductive Request where
  | getBoard
  | getLegalMoves
  | postMove (move : String)
  | postReset (player_color : String)
deriving DecidableEq, Repr

/-- What one run of a handler gets from its surroundings: the replies to the
requests it may send, the two facts it reads off the page, and the answer of
the browser to a selector `[data-square="name"]` whose `name` is outside the
two kinds settled in `querySelected`: an error message, no element, or the
position of the element among the squares (a position past the last square is
an element outside the board). -/
structure Env where
  boardReply : Fetched ServerData
  legalReply : Fetched (List String)
  moveReply : Fetched MoveResult
  resetReply : Fetched Bool
  highlightMoves : Bool
  uiManager : Bool
  selectorEngine : String → Except String (Option Nat)

/-! ## JavaScript helpers -/

/-- Truthiness of a string-or-missing value: present and non-empty. -/
def truthy : Option String → Bool
  | some s => s != ""
  | none => false

/-- The value of `a || b` for a string-or-missing `a` and a string `b`. -/
def jsOr (a : Option String) (b : String) : String :=
  match a with
  | some s => if s != "" then s else b
  | none => b

/-- The own properties of the object `this.pieceSymbols`. -/
def pieceSymbols : List (String × String) :=
  [("K", "♔"), ("Q", "♕"), ("R", "♖"), ("B", "♗"), ("N", "♘"), ("P", "♙"),
   ("k", "♚"), ("q", "♛"), ("r", "♜"), ("b", "♝"), ("n", "♞"), ("p", "♟")]

/-- The text a native function prints as (the layout of V8). -/
def nativeFunctionText (name : String) : String :=
  "function " ++ name ++ "() \x7b [native code] \x7d"

/-- The properties `this.pieceSymbols` inherits from `Object.prototype`, each
with the text its value turns into when assigned to `textContent`; all of the
values are truthy. -/
def objectPrototype : List (String × String) :=
  [("constructor", nativeFunctionText "Object"),
   ("__defineGetter__", nativeFunctionText "__defineGetter__"),
   ("__defineSetter__", nativeFunctionText "__defineSetter__"),
   ("hasOwnProperty", nativeFunctionText "hasOwnProperty"),
   ("__lookupGetter__", nativeFunctionText "__lookupGetter__"),
   ("__lookupSetter__", nativeFunctionText "__lookupSetter__"),
   ("isPrototypeOf", nativeFunctionText "isPrototypeOf"),
   ("propertyIsEnumerable", nativeFunctionText "propertyIsEnumerable"),
   ("toString", nativeFunctionText "toString"),
   ("valueOf", nativeFunctionText "valueOf"),
   ("__proto__", "[object Object]"),
   ("toLocaleString", nativeFunctionText "toLocaleString")]

/-- The read `this.pieceSymbols[piece]`: an own property first, an inherited one
otherwise, `none` for `undefined`. -/
def pieceSymbolAt (piece : String) : Option String :=
  match pieceSymbols.lookup piece with
  | some symbol => some symbol
  | none => objectPrototype.lookup piece

/-! ## The page -/

/-- One `div.square` of the board. -/
structure SquareEl where
  square : String
  classes : List String
  textContent : String
deriving DecidableEq, Repr

/-- The call `classList.add(c)`. -/
def classListAdd (classes : List String) (c : String) : List String :=
  if c ∈ classes then classes else classes ++ [c]

/-- The call `classList.remove(...cs)`. -/
def classListRemove (classes : List String) (cs : List String) : List String :=
  classes.filter (fun c => !cs.contains c)

/-- Apply `f` to the first square whose `data-square` is `name`; the page is
unchanged when there is none. -/
def withSquare (name : String) (f : SquareEl → SquareEl) : List SquareEl → List SquareEl
  | [] => []
  | el :: rest => if el.square = name then f el :: rest else el :: withSquare name f rest

/-- Apply `f` to the square at a position; the squares are unchanged when the
position is past the last one. -/
def modifySquare (f : SquareEl → SquareEl) : Nat → List SquareEl → List SquareEl
  | _, [] => []
  | 0, el :: rest => f el :: rest
  | index + 1, el :: rest => el :: modifySquare f index rest

/-- Whether a character stands for itself inside a double-quoted CSS string:
not the double quote, the backslash, a line break (LF, FF, CR) or NUL. -/
def plainChar (c : Char) : Bool :=
  c.toNat != 34 && c.toNat != 92 && c.toNat != 10 && c.toNat != 12 && c.toNat != 13 &&
    c.toNat != 0

/-- A name made of plain characters only: put between the quotes of
`[data-square="..."]` it is the value the selector compares with. -/
def plainName (name : String) : Bool :=
  name.toList.all plainChar

/-- A name made of plain characters, then a double quote, then letters and
digits only (maybe none): its double quote ends the CSS string early, and what
follows leaves a second string inside the brackets, which no attribute selector
allows. -/
def brokenName (name : String) : Bool :=
  match name.toList.dropWhile plainChar with
  | [] => false
  | c :: rest => c.toNat == 34 && rest.all Char.isAlphanum

/-- The selector text the template literal builds. -/
def selectorText (name : String) : String :=
  "[data-square=\"" ++ name ++ "\"]"

/-- The message of the `SyntaxError` for a selector that does not parse; engines
differ in the words they put before the selector text. -/
def syntaxErrorMessage (name : String) : String :=
  "\x27" ++ selectorText name ++ "\x27 is not a valid selector"

/-- The call `document.querySelector` on the selector built from `name`,
followed by `f` on the element it returns when there is one.  A plain name
selects the first square of that name; a broken name makes the call throw; for
every other name the browser answers through `env.selectorEngine`. -/
def querySelected (env : Env) (name : String) (f : SquareEl → SquareEl)
    (squares : List SquareEl) : Except String (List SquareEl) :=
  if plainName name then .ok (withSquare name f squares)
  else if brokenName name then .error (syntaxErrorMessage name)
  else
    match env.selectorEngine name with
    | .error message => .error message
    | .ok none => .ok squares
    | .ok (some index) => .ok (modifySquare f index squares)

/-- The client: the fields of `ChessGame`, the parts of the document it
writes, and the logs of what it sent and showed. -/
structure ChessGame where
  board : Board
  currentTurn : String
  selectedSquare : Option String
  legalMoves : List String
  gameOver : Bool
  playerColor : String
  moveHistory : List String
  capturedPiecesWhite : List String
  capturedPiecesBlack : List String
  squares : List SquareEl
  moveList : List String
  capturedWhite : String
  capturedBlack : String
  gameOverModalHidden : Bool
  gameOverTitle : String
  gameOverMessage : String
  colorBtn : String
  currentTurnText : String
  checkIndicatorHidden : Bool
  gameStatusText : String
  gameStatusColor : String
  aiThinkingHidden : Bool
  shown : List String
  sent : List Request
deriving Repr

/-- The call `showError(message)`: one message reaches the user, as a
notification when the UI manager exists and as an alert otherwise. -/
def showError (message : String) (g : ChessGame) : ChessGame :=
  { g with shown := g.shown ++ [message] }

/-- The call `showAIThinking(show)`. -/
def showAIThinking (showIt : Bool) (g : ChessGame) : ChessGame :=
  { g with aiThinkingHidden := !showIt }

/-! ## Drawing the board -/

/-- First loop of `updateBoardDisplay`: every square loses its text and the
three marker classes. -/
def clearSquare (el : SquareEl) : SquareEl :=
  { el with textContent := "",
            classes := classListRemove el.classes ["selected", "legal-move", "has-piece"] }

/-- How a call ends: the state it leaves behind, and the message of the error
it threw, if it threw. -/
structure Completion where
  state : ChessGame
  thrown : Option String

/-- The writes of the second loop of `updateBoardDisplay` to the element it
found, made only when the piece exists too. -/
def writePiece (value : Option PieceData) (el : SquareEl) : SquareEl :=
  match value with
  | some pieceData =>
    { el with textContent := jsOr (pieceSymbolAt pieceData.piece) pieceData.piece,
              classes := classListAdd el.classes "has-piece" }
  | none => el

/-- Body of the second loop of `updateBoardDisplay` for one board entry: the
element is looked up first, and written only when both it and the piece exist. -/
def placePiece (env : Env) (squares : List SquareEl) (entry : String × Option PieceData) :
    Except String (List SquareEl) :=
  querySelected env entry.1 (writePiece entry.2) squares

/-- The second loop of `updateBoardDisplay`: the squares it leaves, and the
message of the error that ended it early, if one did. -/
def placePieces (env : Env) :
    List (String × Option PieceData) → List SquareEl → List SquareEl × Option String
  | [], squares => (squares, none)
  | entry :: rest, squares =>
    match placePiece env squares entry with
    | .error message => (squares, some message)
    | .ok squares1 => placePieces env rest squares1

/-- Body of the loop of `highlightLegalMoves` for one move of the reply. -/
def markLegalMove (env : Env) (selected : String) (squares : List SquareEl)
    (moveUci : String) : Except String (List SquareEl) :=
  if selected.isPrefixOf moveUci then
    querySelected env ((moveUci.drop 2).take 2)
      (fun el =>
        let el1 := { el with classes := classListAdd el.classes "legal-move" }
        if "has-piece" ∈ el1.classes then
          { el1 with classes := classListAdd el1.classes "has-piece" }
        else el1)
      squares
  else .ok squares

/-- The loop of `highlightLegalMoves`; an error ends it, and the `catch` of the
method swallows it. -/
def markLegalMoves (env : Env) (selected : String) :
    List String → List SquareEl → List SquareEl
  | [], squares => squares
  | moveUci :: rest, squares =>
    match markLegalMove env selected squares moveUci with
    | .error _ => squares
    | .ok squares1 => markLegalMoves env selected rest squares1

/-- The method `highlightLegalMoves`; its request is awaited inside it, and its writes are
applied here at the point of the call. -/
def highlightLegalMoves (env : Env) (g : ChessGame) : ChessGame :=
  match g.selectedSquare with
  | none => g
  | some selected =>
    if selected = "" then g
    else
      let g1 := { g with sent := g.sent ++ [Request.getLegalMoves] }
      match env.legalReply with
      | .ok legal_moves => { g1 with squares := markLegalMoves env selected legal_moves g1.squares }
      | .threw _ => g1

/-- The step of `updateBoardDisplay` that marks the selected square. -/
def markSelected (env : Env) (selectedSquare : Option String) (squares : List SquareEl) :
    Except String (List SquareEl) :=
  match selectedSquare with
  | some sq =>
    if sq != "" then
      querySelected env sq (fun el => { el with classes := classListAdd el.classes "selected" })
        squares
    else .ok squares
  | none => .ok squares

/-- The method `updateBoardDisplay`: a lookup that throws ends it at once, with
the squares as they are at that point. -/
def updateBoardDisplay (env : Env) (g : ChessGame) : Completion :=
  let cleared := g.squares.map clearSquare
  match placePieces env g.board cleared with
  | (placed, some message) => { state := { g with squares := placed }, thrown := some message }
  | (placed, none) =>
    match markSelected env g.selectedSquare placed with
    | .error message => { state := { g with squares := placed }, thrown := some message }
    | .ok selected =>
      let g1 := { g with squares := selected }
      { state := if env.highlightMoves then highlightLegalMoves env g1 else g1, thrown := none }

/-- The method `updateGameStatus`; the first letter of the turn is put in upper
case as for the colour names, which are ASCII. -/
def updateGameStatus (data : ServerData) (g : ChessGame) : ChessGame :=
  let g1 := { g with currentTurnText := data.turn.capitalize ++ " to move",
                     checkIndicatorHidden := !data.is_check }
  if data.game_over then
    { g1 with gameStatusText := jsOr data.result "Game Over", gameStatusColor := "#dc3545" }
  else
    { g1 with gameStatusText := "Game in progress", gameStatusColor := "#28a745" }

/-- The `try` block of `loadGameState` after the reply `data` has arrived, and
its `catch` block for an error thrown by the repaint. -/
def applyGameState (env : Env) (data : ServerData) (g : ChessGame) : ChessGame :=
  let g2 := { g with board := data.board, currentTurn := data.turn, gameOver := data.game_over }
  let painted := updateBoardDisplay env g2
  match painted.thrown with
  | none => updateGameStatus data painted.state
  | some _ => showError "Failed to connect to game server" painted.state

/-- The method `loadGameState`. -/
def loadGameState (env : Env) (g : ChessGame) : ChessGame :=
  let g1 := { g with sent := g.sent ++ [Request.getBoard] }
  match env.boardReply with
  | .ok data => applyGameState env data g1
  | .threw _ => showError "Failed to connect to game server" g1

/-! ## Building the board -/

/-- The square created by one pass of the inner loop of `initializeBoard`. -/
def newSquare (rank file : Nat) : SquareEl :=
  { square := String.singleton (Char.ofNat (97 + file)) ++ toString rank,
    classes := ["square", if (rank + file) % 2 = 0 then "dark" else "light"],
    textContent := "" }

/-- The squares appended by the two loops of `initializeBoard`: `rank` from 8
down to 1, and `file` from 0 up to 7 inside each rank. -/
def createSquares : List SquareEl :=
  (List.iota 8).foldl
    (fun board rank => (List.range 8).foldl (fun board file => board ++ [newSquare rank file]) board)
    []

/-- The method `initializeBoard`. -/
def initializeBoard (env : Env) (g : ChessGame) : ChessGame :=
  loadGameState env { g with squares := createSquares }

/-- The names of the squares on the page, in document order. -/
def squareNames (g : ChessGame) : List String :=
  g.squares.map (·.square)

/-- The constructor of `ChessGame`, run on a page `doc`: it sets the fields and
builds the board; the document parts it does not write stay as the page has
them, and binding the event handlers changes no state. -/
def ChessGame.new (env : Env) (doc : ChessGame) : ChessGame :=
  initializeBoard env
    { doc with board := [], currentTurn := "white", selectedSquare := none, legalMoves := [],
               gameOver := false, playerColor := "white", moveHistory := [],
               capturedPiecesWhite := [], capturedPiecesBlack := [] }

/-! ## Moves -/

/-- The method `addMoveToHistory`; `moveList` receives the `innerHTML` of the new item. -/
def addMoveToHistory (playerMove : String) (aiMove : Option String) (g : ChessGame) : ChessGame :=
  let moveNumber := g.moveHistory.length / 2 + 1
  let moveText :=
    if g.playerColor = "white" then
      let moveText := toString moveNumber ++ ". " ++ playerMove
      if truthy aiMove then moveText ++ " " ++ aiMove.getD "" else moveText
    else
      let moveText :=
        if g.moveHistory.length % 2 = 0 then toString moveNumber ++ ". ... " ++ playerMove
        else toString moveNumber ++ ". " ++ playerMove
      if truthy aiMove then moveText ++ " " ++ aiMove.getD "" else moveText
  let moveHistory := g.moveHistory ++ [playerMove]
  { g with moveList := g.moveList ++ ["<span>" ++ moveText ++ "</span>"],
           moveHistory := if truthy aiMove then moveHistory ++ [aiMove.getD ""] else moveHistory }

/-- The method `handleGameOver`. -/
def handleGameOver (result : Option String) (g : ChessGame) : ChessGame :=
  { g with gameOverTitle := "Game Over", gameOverMessage := result.getD "",
           gameOverModalHidden := false }

/-- The `catch` block of `makeMove`, entered with the message of the error. -/
def makeMoveCatch (env : Env) (message : String) (g : ChessGame) : ChessGame :=
  let g1 := showError ("Failed to make move: " ++ message) g
  (updateBoardDisplay env { g1 with selectedSquare := none }).state

/-- The method `makeMove`.  The sound and the timer that hides the AI indicator again
a second later leave the state alone and are left out. -/
def makeMove (env : Env) (moveUci : String) (g : ChessGame) : ChessGame :=
  if g.currentTurn != g.playerColor then showError "It\x27s not your turn!" g
  else
    let g1 := showAIThinking false g
    let g2 := { g1 with sent := g1.sent ++ [Request.postMove moveUci] }
    match env.moveReply with
    | .ok result =>
      if result.success then
        let g3 := addMoveToHistory moveUci result.ai_move g2
        let g4 := { g3 with selectedSquare := none }
        let g5 := loadGameState env g4
        let g6 := if truthy result.ai_move then showAIThinking true g5 else g5
        if result.game_over then handleGameOver result.result g6 else g6
      else
        let g3 := showError (jsOr result.error "Invalid move") g2
        let painted := updateBoardDisplay env { g3 with selectedSquare := none }
        match painted.thrown with
        | none => painted.state
        | some message => makeMoveCatch env message painted.state
    | .threw message => makeMoveCatch env message g2

/-- The test `piece && piece.color === this.playerColor && this.currentTurn === this.playerColor`
of `handleSquareClick`. -/
def ownPieceOnTurn (g : ChessGame) (square : String) : Bool :=
  match g.board.pieceAt square with
  | some piece => piece.color == g.playerColor && g.currentTurn == g.playerColor
  | none => false

/-- The method `handleSquareClick`, for a click on the square named `square`:
the state when the handler has ended, by returning or by an error of the
repaint it does not catch. -/
def handleSquareClick (env : Env) (square : String) (g : ChessGame) : ChessGame :=
  if g.gameOver then g
  else if !truthy g.selectedSquare then
    if ownPieceOnTurn g square then
      (updateBoardDisplay env { g with selectedSquare := some square }).state
    else g
  else if g.selectedSquare = some square then
    (updateBoardDisplay env { g with selectedSquare := none }).state
  else if ownPieceOnTurn g square then
    (updateBoardDisplay env { g with selectedSquare := some square }).state
  else
    makeMove env (g.selectedSquare.getD "" ++ square) g

/-! ## Reset -/

/-- The method `resetGame`. -/
def resetGame (env : Env) (playerColor : String) (g : ChessGame) : ChessGame :=
  let g1 := { g with sent := g.sent ++ [Request.postReset playerColor] }
  match env.resetReply with
  | .ok ok =>
    if ok then
      let g2 := { g1 with playerColor := playerColor, selectedSquare := none, moveHistory := [],
                          capturedPiecesWhite := [], capturedPiecesBlack := [],
                          moveList := [], capturedWhite := "", capturedBlack := "",
                          gameOverModalHidden := true }
      let g3 := loadGameState env g2
      { g3 with colorBtn := if playerColor = "white" then "Play as Black" else "Play as White" }
    else g1
  | .threw _ => showError "Failed to reset game" g1

/-- The click handler `bindEvents` puts on the colour button. -/
def colorBtnClick (env : Env) (g : ChessGame) : ChessGame :=
  let newColor := if g.playerColor = "white" then "black" else "white"
  resetGame env newColor g

/-! ## GameManager -/

/-- Reply of `GET /api/game/status`, as far as `GameManager` compares it. -/
structure GameInfo where
  fen : String
  game_over : Bool
  current_turn : String
deriving DecidableEq, Repr

/-- The fields of `GameManager`, with the log of the notifications it showed and
of the retry delays it handed to `setTimeout`. -/
structure GameManager where
  gameState : Option GameInfo
  connectionStatus : String
  reconnectAttempts : Int
  maxReconnectAttempts : Int
  notifications : List (String × String)
  retries : List Int
deriving DecidableEq, Repr

/-- The call `window.uiManager.showNotification(message, type)` behind its guard
`if (window.uiManager)`. -/
def GameManager.notify (uiManager : Bool) (message type : String) (m : GameManager) :
    GameManager :=
  if uiManager then { m with notifications := m.notifications ++ [(message, type)] } else m

/-- The fields the constructor of `GameManager` sets, before its first connection attempt
completes. -/
def GameManager.new : GameManager :=
  { gameState := none, connectionStatus := "disconnected", reconnectAttempts := 0,
    maxReconnectAttempts := 5,
    notifications := [], retries := [] }

/-- The method `handleConnectionError`; `retries` receives the delay of the scheduled
call of `initializeConnection`. -/
def handleConnectionError (uiManager : Bool) (m : GameManager) : GameManager :=
  if m.reconnectAttempts < m.maxReconnectAttempts then
    let m1 := { m with reconnectAttempts := m.reconnectAttempts + 1 }
    let m2 := m1.notify uiManager
      ("Connection lost. Retrying... (" ++ toString m1.reconnectAttempts ++ "/" ++
        toString m1.maxReconnectAttempts ++ ")") "warning"
    { m2 with retries := m2.retries ++ [2000 * m2.reconnectAttempts] }
  else
    m.notify uiManager "Unable to connect to game server. Please refresh the page." "error"

/-- The method `checkConnection`: whether it returns rather than throws, given the reply
to the status request (`response.ok`, or a failed request). -/
def checkConnection : Fetched Bool → Bool
  | .ok ok => ok
  | .threw _ => false

/-- The method `initializeConnection`, given the reply its status request gets. -/
def initializeConnection (uiManager : Bool) (reply : Fetched Bool) (m : GameManager) :
    GameManager :=
  if checkConnection reply then
    let m1 := { m with connectionStatus := "connected", reconnectAttempts := 0 }
    m1.notify uiManager "Connected to game server" "success"
  else
    handleConnectionError uiManager { m with connectionStatus := "error" }

/-- The state after the connection attempts whose replies are `replies`, in order. -/
def connectionAttempts (uiManager : Bool) (replies : List (Fetched Bool)) (m : GameManager) :
    GameManager :=
  replies.foldl (fun m reply => initializeConnection uiManager reply m) m

/-- The method `hasGameStateChanged`. -/
def hasGameStateChanged (newState : GameInfo) (m : GameManager) : Bool :=
  match m.gameState with
  | none => true
  | some gameState =>
    gameState.fen != newState.fen ||
    gameState.game_over != newState.game_over ||
    gameState.current_turn != newState.current_turn

/-- The method `syncGameState`, given the reply its status request gets and the
value of `window.chessGame`; it returns the game and the manager afterwards, or
rethrows the error of the request. -/
def syncGameState (env : Env) (statusReply : Fetched GameInfo) (chessGame : Option ChessGame)
    (m : GameManager) : Except String (Option ChessGame × GameManager) :=
  match statusReply with
  | .threw message => .error message
  | .ok gameInfo =>
    let chessGame1 :=
      match chessGame with
      | some game =>
        if hasGameStateChanged gameInfo m then some (loadGameState env game) else some game
      | none => none
    .ok (chessGame1, { m with gameState := some gameInfo })

/-! ## Observations used in the statements -/

/-- The moves of the move requests in a log of requests, in order. -/
def moveRequests (sent : List Request) : List String :=
  sent.filterMap (fun request =>
    match request with
    | .postMove move => some move
    | _ => none)

/-- What a square displays: its name, its text, and whether it carries `has-piece`. -/
def SquareEl.display (el : SquareEl) : String × String × Bool :=
  (el.square, el.textContent, decide ("has-piece" ∈ el.classes))

/-- The text drawn for a piece: `this.pieceSymbols[piece] || piece`. -/
def symbolOf (pieceData : PieceData) : String :=
  jsOr (pieceSymbolAt pieceData.piece) pieceData.piece

/-- Effect of one board entry with a plain key on one square, when square names
are distinct. -/
def placeOn (entry : String × Option PieceData) (el : SquareEl) : SquareEl :=
  if el.square = entry.1 then writePiece entry.2 el else el

/-- A board the repaint is written for: every key is a plain name, and no piece
is named like a property inherited from `Object.prototype`. -/
def plainBoard (board : Board) : Prop :=
  (∀ entry ∈ board, plainName entry.1 = true) ∧
  (∀ entry ∈ board, ∀ pieceData, entry.2 = some pieceData →
    objectPrototype.lookup pieceData.piece = none)

/-- The message `makeMove` shows for a reply that is not a success: the error
text of the reply, `Invalid move` when the reply has none (absent or empty), or
the message of the exception behind `Failed to make move: `. -/
def rejectionMessage : Fetched MoveResult → String
  | .ok result =>
    match result.error with
    | some text => if text = "" then "Invalid move" else text
    | none => "Invalid move"
  | .threw message => "Failed to make move: " ++ message

/-- The 64 names `initializeBoard` gives the squares, in document order. -/
def boardSquareNames : List String :=
  createSquares.map (·.square)

/-- The message shown when no further retry is made. -/
def unableMessage : String × String :=
  ("Unable to connect to game server. Please refresh the page.", "error")

/-- The manager reached from a new one after the connection attempts with
replies `replies`. -/
def reachedManager (uiManager : Bool) (replies : List (Fetched Bool)) : GameManager :=
  connectionAttempts uiManager replies GameManager.new

/-- The state after the calls `addMoveToHistory(playerMove, aiMove)` for the
pairs of `calls`, in order. -/
def addMoves (calls : List (String × String)) (g : ChessGame) : ChessGame :=
  calls.foldl (fun g call => addMoveToHistory call.1 (some call.2) g) g

/-- The number of board requests in a log of requests; `loadGameState` sends one
each time it is called. -/
def boardRequests (sent : List Request) : Nat :=
  sent.count Request.getBoard

/-- The claim's condition for a reload: either no status is stored, or the new
status differs from the stored one in `fen`, `game_over` or `current_turn`. -/
def statusDiffers (stored : Option GameInfo) (gameInfo : GameInfo) : Prop :=
  stored = none ∨
    ∃ old, stored = some old ∧
      (old.fen ≠ gameInfo.fen ∨ old.game_over ≠ gameInfo.game_over ∨
        old.current_turn ≠ gameInfo.current_turn)

/-! ## Sample inputs -/

/-- A page on which nothing has been drawn or sent yet. -/
def blankPage : ChessGame :=
  { board := [], currentTurn := "", selectedSquare := none, legalMoves := [],
    gameOver := false, playerColor := "", moveHistory := [],
    capturedPiecesWhite := [], capturedPiecesBlack := [],
    squares := [], moveList := [], capturedWhite := "", capturedBlack := "",
    gameOverModalHidden := true, gameOverTitle := "", gameOverMessage := "",
    colorBtn := "Play as Black", currentTurnText := "", checkIndicatorHidden := true,
    gameStatusText := "", gameStatusColor := "", aiThinkingHidden := true,
    shown := [], sent := [] }

/-- A small board reply: two white pieces, a black one, and an empty entry. -/
def sampleData : ServerData :=
  { board := [("e2", some ⟨"P", "white"⟩), ("e1", some ⟨"K", "white"⟩),
              ("e7", some ⟨"p", "black"⟩), ("e4", none)],
    turn := "white", game_over := false, is_check := false, result := none }

/-- Replies in which the service answers the board request with `sampleData`
and rejects the move. -/
def sampleEnv : Env :=
  { boardReply := .ok sampleData, legalReply := .ok ["e2e4", "e2e3"],
    moveReply := .ok ⟨false, some "Illegal move", none, false, none⟩,
    resetReply := .ok true, highlightMoves := true, uiManager := true,
    selectorEngine := fun _ => .ok none }

/-- A client in mid-game whose cache disagrees with `sampleData`. -/
def staleGame : ChessGame :=
  { blankPage with board := [("a1", some ⟨"R", "white"⟩)], currentTurn := "black",
                   gameOver := true, playerColor := "white", selectedSquare := some "a1",
                   squares := createSquares.map (fun el =>
                     { el with textContent := "♖",
                               classes := el.classes ++ ["has-piece", "selected"] }) }

/-- The client right after its constructor got `sampleData`: white to move,
playing white. -/
def freshGame : ChessGame :=
  ChessGame.new sampleEnv blankPage

/-- The client after a click on the white pawn on e2. -/
def pickedGame : ChessGame :=
  handleSquareClick sampleEnv "e2" freshGame

/-- Replies in which the board request reports that the game has ended. -/
def overEnv : Env :=
  { sampleEnv with boardReply := .ok { sampleData with game_over := true,
                                                        result := some "Checkmate" } }

/-- The client after the pawn was picked and a later poll reported the end of the game. -/
def overGame : ChessGame :=
  loadGameState overEnv pickedGame

/-- A status reply for the position of `sampleData`. -/
def sampleInfo : GameInfo :=
  { fen := "8/4p3/8/8/8/8/4P3/4K3 w - - 0 1", game_over := false, current_turn := "white" }

/-- Six requests in a row that fail to reach the server. -/
def sixFailures : List (Fetched Bool) :=
  List.replicate 6 (.threw "Failed to fetch")

/-- A board reply whose first key holds a double quote. -/
def quotedData : ServerData :=
  { sampleData with board := [("a\x221", none), ("e2", some ⟨"P", "white"⟩)] }

/-- The client right after its constructor got `quotedData`. -/
def quotedGame : ChessGame :=
  ChessGame.new { sampleEnv with boardReply := .ok quotedData } blankPage

/-- The client with the board of `quotedData` after a click on the pawn on e2. -/
def quotedPickedGame : ChessGame :=
  handleSquareClick sampleEnv "e2" quotedGame

/-- A board reply with a piece named like a property every object inherits. -/
def inheritedNameData : ServerData :=
  { sampleData with board := [("e2", some ⟨"constructor", "white"⟩)] }

/-- The client right after its constructor got `inheritedNameData`. -/
def inheritedNameGame : ChessGame :=
  ChessGame.new { sampleEnv with boardReply := .ok inheritedNameData } blankPage

theorem moveRequests_append (a b : List Request) :
    moveRequests (a ++ b) = moveRequests a ++ moveRequests b := by
  simp [moveRequests, List.filterMap_append]

theorem boardRequests_append (a b : List Request) :
    boardRequests (a ++ b) = boardRequests a + boardRequests b := by
  simp [boardRequests, List.count_append]

/-! ## What a repaint keeps -/

theorem highlightLegalMoves_frame (env : Env) (g : ChessGame) :
    ∃ squares sent, highlightLegalMoves env g = { g with squares := squares, sent := sent } ∧
      moveRequests sent = moveRequests g.sent ∧ boardRequests sent = boardRequests g.sent := by
  have hm : moveRequests (g.sent ++ [Request.getLegalMoves]) = moveRequests g.sent := by
    simp [moveRequests_append, moveRequests]
  have hb : boardRequests (g.sent ++ [Request.getLegalMoves]) = boardRequests g.sent := by
    rw [boardRequests_append, show boardRequests [Request.getLegalMoves] = 0 by decide,
      Nat.add_zero]
  simp only [highlightLegalMoves]
  split
  · exact ⟨g.squares, g.sent, rfl, rfl, rfl⟩
  · split
    · exact ⟨g.squares, g.sent, rfl, rfl, rfl⟩
    · split
      · exact ⟨_, _, rfl, hm, hb⟩
      · exact ⟨g.squares, _, rfl, hm, hb⟩

/-- A repaint, whether it returns or throws, writes to the squares and to the
log of requests only, and sends neither a move nor a board request. -/
theorem updateBoardDisplay_frame (env : Env) (g : ChessGame) :
    ∃ squares sent,
      (updateBoardDisplay env g).state = { g with squares := squares, sent := sent } ∧
      moveRequests sent = moveRequests g.sent ∧ boardRequests sent = boardRequests g.sent := by
  simp only [updateBoardDisplay]
  split
  · exact ⟨_, g.sent, rfl, rfl, rfl⟩
  · split
    · exact ⟨_, g.sent, rfl, rfl, rfl⟩
    · rename_i selected _
      by_cases hh : env.highlightMoves = true
      · simp only [hh, if_true]
        obtain ⟨sq, snt, h, hm, hb⟩ := highlightLegalMoves_frame env
          { g with squares := selected }
        exact ⟨sq, snt, h, hm, hb⟩
      · simp only [hh]
        exact ⟨_, g.sent, rfl, rfl, rfl⟩

theorem updateGameStatus_frame (data : ServerData) (g : ChessGame) :
    ∃ t c s k, updateGameStatus data g =
      { g with currentTurnText := t, checkIndicatorHidden := c, gameStatusText := s,
               gameStatusColor := k } := by
  simp only [updateGameStatus]
  split <;> exact ⟨_, _, _, _, rfl⟩

/-- The part of `loadGameState` after a reply: the cache is overwritten with the
reply, and apart from it only the squares, the logs and the status texts change. -/
theorem applyGameState_frame (env : Env) (data : ServerData) (g : ChessGame) :
    ∃ squares sent shown t c s k,
      applyGameState env data g =
        { g with board := data.board, currentTurn := data.turn, gameOver := data.game_over,
                 squares := squares, sent := sent, shown := shown, currentTurnText := t,
                 checkIndicatorHidden := c, gameStatusText := s, gameStatusColor := k } ∧
      moveRequests sent = moveRequests g.sent ∧ boardRequests sent = boardRequests g.sent := by
  obtain ⟨sq, snt, hu, hm, hb⟩ := updateBoardDisplay_frame env
    { g with board := data.board, currentTurn := data.turn, gameOver := data.game_over }
  simp only [applyGameState]
  split
  · obtain ⟨t, c, st, k, hs⟩ := updateGameStatus_frame data (updateBoardDisplay env
      { g with board := data.board, currentTurn := data.turn, gameOver := data.game_over }).state
    rw [hs, hu]
    exact ⟨_, _, _, _, _, _, _, rfl, hm, hb⟩
  · rw [hu]
    exact ⟨_, _, _, _, _, _, _, rfl, hm, hb⟩

/-- What `loadGameState` leaves alone, whatever the reply: apart from the cache,
only the squares, the logs and the status texts change, and one board request
and no move request is sent. -/
theorem loadGameState_frame (env : Env) (g : ChessGame) :
    ∃ board turn over squares sent shown t c s k,
      loadGameState env g =
        { g with board := board, currentTurn := turn, gameOver := over,
                 squares := squares, sent := sent, shown := shown, currentTurnText := t,
                 checkIndicatorHidden := c, gameStatusText := s, gameStatusColor := k } ∧
      moveRequests sent = moveRequests g.sent ∧
      boardRequests sent = boardRequests g.sent + 1 := by
  have hm : moveRequests (g.sent ++ [Request.getBoard]) = moveRequests g.sent := by
    simp [moveRequests_append, moveRequests]
  have hb : boardRequests (g.sent ++ [Request.getBoard]) = boardRequests g.sent + 1 := by
    rw [boardRequests_append, show boardRequests [Request.getBoard] = 1 by decide]
  simp only [loadGameState]
  split
  · rename_i data _
    obtain ⟨sq, snt, sh, t, c, s, k, h, hm', hb'⟩ := applyGameState_frame env data
      { g with sent := g.sent ++ [Request.getBoard] }
    rw [h]
    exact ⟨_, _, _, _, _, _, _, _, _, _, rfl, hm'.trans hm, hb'.trans hb⟩
  · exact ⟨_, _, _, _, _, _, _, _, _, _, rfl, hm, hb⟩

/-- With a reply, `loadGameState` caches the board, the turn and the game-over flag of the reply. -/
theorem loadGameState_cache (env : Env) (data : ServerData) (g : ChessGame)
    (h : env.boardReply = .ok data) :
    (loadGameState env g).board = data.board ∧
    (loadGameState env g).currentTurn = data.turn ∧
    (loadGameState env g).gameOver = data.game_over := by
  obtain ⟨sq, snt, sh, t, c, s, k, ha, _⟩ := applyGameState_frame env data
    { g with sent := g.sent ++ [Request.getBoard] }
  simp only [loadGameState, h]
  rw [ha]
  exact ⟨rfl, rfl, rfl⟩

theorem loadGameState_keeps (env : Env) (g : ChessGame) :
    (loadGameState env g).selectedSquare = g.selectedSquare ∧
    (loadGameState env g).playerColor = g.playerColor ∧
    (loadGameState env g).moveHistory = g.moveHistory ∧
    (loadGameState env g).capturedPiecesWhite = g.capturedPiecesWhite ∧
    (loadGameState env g).capturedPiecesBlack = g.capturedPiecesBlack ∧
    (loadGameState env g).moveList = g.moveList ∧
    (loadGameState env g).capturedWhite = g.capturedWhite ∧
    (loadGameState env g).capturedBlack = g.capturedBlack ∧
    (loadGameState env g).gameOverModalHidden = g.gameOverModalHidden ∧
    (loadGameState env g).colorBtn = g.colorBtn ∧
    (loadGameState env g).legalMoves = g.legalMoves ∧
    moveRequests (loadGameState env g).sent = moveRequests g.sent := by
  obtain ⟨b, tn, o, sq, snt, sh, t, c, s, k, h, hm, _⟩ := loadGameState_frame env g
  rw [h]
  exact ⟨rfl, rfl, rfl, rfl, rfl, rfl, rfl, rfl, rfl, rfl, rfl, hm⟩

/-- Every call of `loadGameState` sends one board request, so a reload shows in the log. -/
theorem loadGameState_boardRequests (env : Env) (g : ChessGame) :
    boardRequests (loadGameState env g).sent = boardRequests g.sent + 1 := by
  obtain ⟨b, tn, o, sq, snt, sh, t, c, s, k, h, _, hb⟩ := loadGameState_frame env g
  rw [h]
  exact hb

theorem updateBoardDisplay_moveRequests (env : Env) (g : ChessGame) :
    moveRequests (updateBoardDisplay env g).state.sent = moveRequests g.sent := by
  obtain ⟨sq, snt, hu, hx, _⟩ := updateBoardDisplay_frame env g
  rw [hu]; exact hx

theorem updateBoardDisplay_selectedSquare (env : Env) (g : ChessGame) :
    (updateBoardDisplay env g).state.selectedSquare = g.selectedSquare := by
  obtain ⟨sq, snt, hu, _⟩ := updateBoardDisplay_frame env g
  rw [hu]

/-! ## Looking up a square -/

theorem mem_classListAdd (classes : List String) (c d : String) :
    d ∈ classListAdd classes c ↔ d ∈ classes ∨ d = c := by
  unfold classListAdd
  split
  · constructor
    · intro h; exact Or.inl h
    · rintro (h | h)
      · exact h
      · subst h; assumption
  · simp

theorem withSquare_eq_map (name : String) (f : SquareEl → SquareEl) :
    ∀ squares : List SquareEl, (squares.map (·.square)).Nodup →
      withSquare name f squares = squares.map (fun el => if el.square = name then f el else el)
  | [], _ => rfl
  | el :: rest, h => by
    rw [List.map_cons, List.nodup_cons] at h
    by_cases hn : el.square = name
    · have hrest : rest.map (fun el => if el.square = name then f el else el) = rest := by
        conv_rhs => rw [← List.map_id rest]
        apply List.map_congr_left
        intro r hr
        have : r.square ≠ name := by
          intro hEq
          exact h.1 (List.mem_map.mpr ⟨r, hr, by rw [hEq, hn]⟩)
        simp [this]
      simp only [withSquare, hn, if_true, List.map_cons, hrest]
    · simp only [withSquare, hn, if_false, List.map_cons, withSquare_eq_map name f rest h.2]

theorem withSquare_names (name : String) (f : SquareEl → SquareEl)
    (hf : ∀ el, (f el).square = el.square) :
    ∀ squares : List SquareEl, (withSquare name f squares).map (·.square) = squares.map (·.square)
  | [] => rfl
  | el :: rest => by
    by_cases hn : el.square = name
    · simp only [withSquare, hn, if_true, List.map_cons, hf el]
    · simp only [withSquare, hn, if_false, List.map_cons, withSquare_names name f hf rest]

theorem withSquare_display (name : String) (f : SquareEl → SquareEl)
    (hf : ∀ el, (f el).display = el.display) :
    ∀ squares : List SquareEl,
      (withSquare name f squares).map SquareEl.display = squares.map SquareEl.display
  | [] => rfl
  | el :: rest => by
    by_cases hn : el.square = name
    · simp only [withSquare, hn, if_true, List.map_cons, hf el]
    · simp only [withSquare, hn, if_false, List.map_cons, withSquare_display name f hf rest]

theorem modifySquare_names (f : SquareEl → SquareEl) (hf : ∀ el, (f el).square = el.square) :
    ∀ (index : Nat) (squares : List SquareEl),
      (modifySquare f index squares).map (·.square) = squares.map (·.square)
  | index, [] => by cases index <;> rfl
  | 0, el :: rest => by simp only [modifySquare, List.map_cons, hf el]
  | index + 1, el :: rest => by
    simp only [modifySquare, List.map_cons, modifySquare_names f hf index rest]

theorem modifySquare_display (f : SquareEl → SquareEl)
    (hf : ∀ el, (f el).display = el.display) :
    ∀ (index : Nat) (squares : List SquareEl),
      (modifySquare f index squares).map SquareEl.display = squares.map SquareEl.display
  | index, [] => by cases index <;> rfl
  | 0, el :: rest => by simp only [modifySquare, List.map_cons, hf el]
  | index + 1, el :: rest => by
    simp only [modifySquare, List.map_cons, modifySquare_display f hf index rest]

/-- A lookup with a plain name does not throw: it is the exact match. -/
theorem querySelected_plain (env : Env) (name : String) (f : SquareEl → SquareEl)
    (squares : List SquareEl) (h : plainName name = true) :
    querySelected env name f squares = .ok (withSquare name f squares) := by
  simp only [querySelected, h, if_true]

theorem querySelected_names (env : Env) (name : String) (f : SquareEl → SquareEl)
    (hf : ∀ el, (f el).square = el.square) (squares result : List SquareEl)
    (h : querySelected env name f squares = .ok result) :
    result.map (·.square) = squares.map (·.square) := by
  unfold querySelected at h
  split at h
  · cases h; exact withSquare_names name f hf squares
  · split at h
    · cases h
    · split at h
      · cases h
      · cases h; rfl
      · cases h; exact modifySquare_names f hf _ squares

theorem querySelected_display (env : Env) (name : String) (f : SquareEl → SquareEl)
    (hf : ∀ el, (f el).display = el.display) (squares result : List SquareEl)
    (h : querySelected env name f squares = .ok result) :
    result.map SquareEl.display = squares.map SquareEl.display := by
  unfold querySelected at h
  split at h
  · cases h; exact withSquare_display name f hf squares
  · split at h
    · cases h
    · split at h
      · cases h
      · cases h; rfl
      · cases h; exact modifySquare_display f hf _ squares

theorem writePiece_square (value : Option PieceData) (el : SquareEl) :
    (writePiece value el).square = el.square := by
  unfold writePiece
  split <;> rfl

/-! ## What a repaint does to the squares -/

/-- The second loop keeps the squares and their names, also when it ends early. -/
theorem placePieces_names (env : Env) :
    ∀ (board : Board) (squares : List SquareEl),
      (placePieces env board squares).1.map (fun el => el.square) =
        squares.map (fun el => el.square)
  | [], _ => rfl
  | entry :: board, squares => by
    simp only [placePieces]
    cases h : placePiece env squares entry with
    | error message => rfl
    | ok squares1 =>
      simp only []
      rw [placePieces_names env board squares1]
      exact querySelected_names env entry.1 _ (writePiece_square entry.2) squares squares1 h

theorem markLegalMove_names (env : Env) (selected : String) (squares result : List SquareEl)
    (moveUci : String) (h : markLegalMove env selected squares moveUci = .ok result) :
    result.map (fun el => el.square) = squares.map (fun el => el.square) := by
  unfold markLegalMove at h
  split at h
  · refine querySelected_names env _ _ ?_ squares result h
    intro el
    simp only []
    split <;> rfl
  · cases h; rfl

theorem markLegalMoves_names (env : Env) (selected : String) :
    ∀ (moves : List String) (squares : List SquareEl),
      (markLegalMoves env selected moves squares).map (fun el => el.square) =
        squares.map (fun el => el.square)
  | [], _ => rfl
  | moveUci :: moves, squares => by
    simp only [markLegalMoves]
    cases h : markLegalMove env selected squares moveUci with
    | error message => rfl
    | ok squares1 =>
      simp only []
      rw [markLegalMoves_names env selected moves squares1]
      exact markLegalMove_names env selected squares squares1 moveUci h

theorem highlightLegalMoves_squareNames (env : Env) (g : ChessGame) :
    squareNames (highlightLegalMoves env g) = squareNames g := by
  simp only [highlightLegalMoves, squareNames]
  split
  · rfl
  · split
    · rfl
    · split
      · exact markLegalMoves_names _ _ _ _
      · rfl

theorem markSelected_names (env : Env) (selectedSquare : Option String)
    (squares result : List SquareEl) (h : markSelected env selectedSquare squares = .ok result) :
    result.map (fun el => el.square) = squares.map (fun el => el.square) := by
  unfold markSelected at h
  split at h
  · split at h
    · refine querySelected_names env _ _ ?_ squares result h
      intro el
      rfl
    · cases h; rfl
  · cases h; rfl

/-- A repaint keeps the squares and their names, whatever the board holds and
whether it returns or throws. -/
theorem updateBoardDisplay_squareNames (env : Env) (g : ChessGame) :
    squareNames (updateBoardDisplay env g).state = squareNames g := by
  have hplaced := placePieces_names env g.board (g.squares.map clearSquare)
  have hclear : (g.squares.map clearSquare).map (fun el => el.square) =
      g.squares.map (fun el => el.square) := by
    rw [List.map_map]; rfl
  simp only [updateBoardDisplay, squareNames]
  split
  · rename_i placed message hp
    rw [hp] at hplaced
    exact hplaced.trans hclear
  · rename_i placed hp
    rw [hp] at hplaced
    split
    · exact hplaced.trans hclear
    · rename_i selected hs
      have hsel := markSelected_names env g.selectedSquare placed selected hs
      split
      · exact (highlightLegalMoves_squareNames env _).trans (hsel.trans (hplaced.trans hclear))
      · exact hsel.trans (hplaced.trans hclear)

theorem loadGameState_squareNames (env : Env) (g : ChessGame) :
    squareNames (loadGameState env g) = squareNames g := by
  simp only [loadGameState]
  split
  · rename_i data _
    simp only [applyGameState]
    split
    · obtain ⟨t, c, st, k, hs⟩ := updateGameStatus_frame data (updateBoardDisplay env
        { g with sent := g.sent ++ [Request.getBoard], board := data.board,
                 currentTurn := data.turn, gameOver := data.game_over }).state
      rw [hs]
      exact updateBoardDisplay_squareNames env _
    · exact updateBoardDisplay_squareNames env _
  · rfl

/-! ## What a square displays -/

theorem placeOn_square (entry : String × Option PieceData) (el : SquareEl) :
    (placeOn entry el).square = el.square := by
  unfold placeOn
  split
  · exact writePiece_square entry.2 el
  · rfl

/-- With plain keys the second loop does not throw: it is the exact match on every key. -/
theorem placePieces_plain (env : Env) :
    ∀ (board : Board) (squares : List SquareEl), (∀ entry ∈ board, plainName entry.1 = true) →
      placePieces env board squares =
        (board.foldl (fun squares entry => withSquare entry.1 (writePiece entry.2) squares)
          squares, none)
  | [], _, _ => rfl
  | entry :: board, squares, h => by
    have hentry : plainName entry.1 = true := h entry (List.mem_cons_self _ _)
    have hrest : ∀ e ∈ board, plainName e.1 = true :=
      fun e he => h e (List.mem_cons_of_mem _ he)
    simp only [placePieces, placePiece, querySelected_plain env entry.1 _ squares hentry,
      List.foldl_cons]
    exact placePieces_plain env board _ hrest

theorem foldl_withSquare_eq_map :
    ∀ (board : Board) (squares : List SquareEl), (squares.map (·.square)).Nodup →
      board.foldl (fun squares entry => withSquare entry.1 (writePiece entry.2) squares) squares =
        squares.map (fun el => board.foldl (fun el entry => placeOn entry el) el)
  | [], squares, _ => by simp
  | entry :: board, squares, h => by
    have hstep : withSquare entry.1 (writePiece entry.2) squares =
        squares.map (placeOn entry) := by
      rw [withSquare_eq_map entry.1 _ squares h]
      rfl
    have hn : ((squares.map (placeOn entry)).map (·.square)).Nodup := by
      rw [List.map_map]
      have : ((fun el : SquareEl => el.square) ∘ placeOn entry) = (fun el => el.square) := by
        funext el; exact placeOn_square entry el
      rw [this]; exact h
    rw [List.foldl_cons, hstep, foldl_withSquare_eq_map board _ hn, List.map_map]
    rfl

theorem foldl_placeOn_absent :
    ∀ (board : Board) (el : SquareEl), el.square ∉ board.map Prod.fst →
      board.foldl (fun el entry => placeOn entry el) el = el
  | [], _, _ => rfl
  | (key, value) :: board, el, h => by
    rw [List.map_cons, List.mem_cons, not_or] at h
    have hstep : placeOn (key, value) el = el := by
      unfold placeOn
      simp only [h.1, if_false]
    rw [List.foldl_cons, hstep]
    exact foldl_placeOn_absent board el h.2

/-- After all board entries are applied to a square, it displays the piece
stored under its name, and is untouched when there is none. -/
theorem foldl_placeOn_spec :
    ∀ (board : Board) (el : SquareEl), (board.map Prod.fst).Nodup →
      match board.pieceAt el.square with
      | some pieceData =>
        (board.foldl (fun el entry => placeOn entry el) el).display =
          (el.square, symbolOf pieceData, true)
      | none => board.foldl (fun el entry => placeOn entry el) el = el
  | [], el, _ => by simp [Board.pieceAt]
  | (key, value) :: board, el, h => by
    rw [List.map_cons, List.nodup_cons] at h
    by_cases hk : el.square = key
    · have hlook : Board.pieceAt ((key, value) :: board) el.square = value := by
        simp [Board.pieceAt, List.lookup, hk]
      rw [hlook, List.foldl_cons]
      have habs : (placeOn (key, value) el).square ∉ board.map Prod.fst := by
        rw [placeOn_square, hk]; exact h.1
      rw [foldl_placeOn_absent board _ habs]
      cases value with
      | none => simp [placeOn, writePiece]
      | some pieceData =>
        simp [placeOn, writePiece, hk, SquareEl.display, symbolOf, mem_classListAdd]
    · have hlook : Board.pieceAt ((key, value) :: board) el.square =
          Board.pieceAt board el.square := by
        have : (el.square == key) = false := by simpa using hk
        simp [Board.pieceAt, List.lookup, this]
      have hstep : placeOn (key, value) el = el := by
        unfold placeOn
        simp only [hk, if_false]
      rw [hlook, List.foldl_cons, hstep]
      exact foldl_placeOn_spec board el h.2

theorem clearSquare_display (el : SquareEl) :
    (clearSquare el).display = (el.square, "", false) := by
  simp [clearSquare, SquareEl.display, classListRemove]

theorem pieceSymbols_ne_empty (piece symbol : String)
    (h : pieceSymbols.lookup piece = some symbol) : symbol ≠ "" := by
  simp only [pieceSymbols, List.lookup] at h
  repeat' split at h
  all_goals first
    | (injection h with h; subst h; decide)
    | cases h

/-- For a piece that is not named like an inherited property, the text drawn is
its symbol, or its raw name when the table has none. -/
theorem symbolOf_eq (pieceData : PieceData)
    (hown : objectPrototype.lookup pieceData.piece = none) :
    symbolOf pieceData =
      match pieceSymbols.lookup pieceData.piece with
      | some symbol => symbol
      | none => pieceData.piece := by
  unfold symbolOf jsOr pieceSymbolAt
  cases h : pieceSymbols.lookup pieceData.piece with
  | none => simp only [hown]
  | some symbol =>
    have := pieceSymbols_ne_empty _ _ h
    simp [this]

theorem markLegalMove_display (env : Env) (selected : String) (squares result : List SquareEl)
    (moveUci : String) (h : markLegalMove env selected squares moveUci = .ok result) :
    result.map SquareEl.display = squares.map SquareEl.display := by
  unfold markLegalMove at h
  split at h
  · refine querySelected_display env _ _ ?_ squares result h
    intro el
    by_cases hp : "has-piece" ∈ el.classes
    · simp [SquareEl.display, mem_classListAdd, hp]
    · simp [SquareEl.display, mem_classListAdd, hp]
  · cases h; rfl

theorem markLegalMoves_display (env : Env) (selected : String) :
    ∀ (moves : List String) (squares : List SquareEl),
      (markLegalMoves env selected moves squares).map SquareEl.display =
        squares.map SquareEl.display
  | [], _ => rfl
  | moveUci :: moves, squares => by
    simp only [markLegalMoves]
    cases h : markLegalMove env selected squares moveUci with
    | error message => rfl
    | ok squares1 =>
      simp only []
      rw [markLegalMoves_display env selected moves squares1]
      exact markLegalMove_display env selected squares squares1 moveUci h

theorem highlightLegalMoves_display (env : Env) (g : ChessGame) :
    (highlightLegalMoves env g).squares.map SquareEl.display =
      g.squares.map SquareEl.display := by
  simp only [highlightLegalMoves]
  split
  · rfl
  · split
    · rfl
    · split
      · exact markLegalMoves_display _ _ _ _
      · rfl

theorem markSelected_display (env : Env) (selectedSquare : Option String)
    (squares result : List SquareEl) (h : markSelected env selectedSquare squares = .ok result) :
    result.map SquareEl.display = squares.map SquareEl.display := by
  unfold markSelected at h
  split at h
  · split at h
    · refine querySelected_display env _ _ ?_ squares result h
      intro el
      simp [SquareEl.display, mem_classListAdd]
    · cases h; rfl
  · cases h; rfl

/-- What every square displays after `updateBoardDisplay` on a board with plain
and distinct keys, as a function of the cached board alone. -/
theorem updateBoardDisplay_display (env : Env) (g : ChessGame)
    (hplain : ∀ entry ∈ g.board, plainName entry.1 = true)
    (hkeys : (g.board.map Prod.fst).Nodup) (hnames : (squareNames g).Nodup) :
    (updateBoardDisplay env g).state.squares.map SquareEl.display =
      (squareNames g).map (fun name =>
        match g.board.pieceAt name with
        | some pieceData => (name, symbolOf pieceData, true)
        | none => (name, "", false)) := by
  have hclear : ((g.squares.map clearSquare).map (·.square)).Nodup := by
    rw [List.map_map]; exact hnames
  have hplaces := placePieces_plain env g.board (g.squares.map clearSquare) hplain
  have hplaced : (g.board.foldl
      (fun squares entry => withSquare entry.1 (writePiece entry.2) squares)
      (g.squares.map clearSquare)).map SquareEl.display =
      (squareNames g).map (fun name =>
        match g.board.pieceAt name with
        | some pieceData => (name, symbolOf pieceData, true)
        | none => (name, "", false)) := by
    rw [foldl_withSquare_eq_map g.board _ hclear, squareNames, List.map_map, List.map_map,
      List.map_map]
    apply List.map_congr_left
    intro el _
    have hspec := foldl_placeOn_spec g.board (clearSquare el) hkeys
    have hsq : (clearSquare el).square = el.square := rfl
    rw [hsq] at hspec
    simp only [Function.comp]
    cases hp : g.board.pieceAt el.square with
    | none =>
      rw [hp] at hspec
      simp only [hspec, clearSquare_display]
    | some pieceData =>
      rw [hp] at hspec
      simp only [hspec]
  simp only [updateBoardDisplay, hplaces]
  split
  · exact hplaced
  · rename_i selected hs
    have hsel := markSelected_display env g.selectedSquare _ selected hs
    split
    · rw [highlightLegalMoves_display]
      exact hsel.trans hplaced
    · exact hsel.trans hplaced

/-- A repaint returns when the board keys are plain and the selection, if any, is too. -/
theorem updateBoardDisplay_returns (env : Env) (g : ChessGame)
    (hplain : ∀ entry ∈ g.board, plainName entry.1 = true)
    (hselected : ∀ selected, g.selectedSquare = some selected → plainName selected = true) :
    (updateBoardDisplay env g).thrown = none := by
  have hplaces := placePieces_plain env g.board (g.squares.map clearSquare) hplain
  have hmark : ∀ squares : List SquareEl, ∃ result,
      markSelected env g.selectedSquare squares = .ok result := by
    intro squares
    unfold markSelected
    cases hs : g.selectedSquare with
    | none => exact ⟨_, rfl⟩
    | some selected =>
      simp only []
      split
      · exact ⟨_, querySelected_plain env selected _ squares (hselected selected hs)⟩
      · exact ⟨_, rfl⟩
  simp only [updateBoardDisplay, hplaces]
  obtain ⟨result, hresult⟩ := hmark (g.board.foldl
    (fun squares entry => withSquare entry.1 (writePiece entry.2) squares)
    (g.squares.map clearSquare))
  rw [hresult]


theorem lookup_mem {α : Type} :
    ∀ (board : List (String × α)) (key : String) (value : α),
      board.lookup key = some value → (key, value) ∈ board
  | [], _, _, h => by simp [List.lookup] at h
  | (k, v) :: rest, key, value, h => by
    by_cases hk : key = k
    · subst hk
      simp [List.lookup] at h
      subst h
      exact List.mem_cons_self _ _
    · have hb : (key == k) = false := by simpa using hk
      simp only [List.lookup, hb] at h
      exact List.mem_cons_of_mem _ (lookup_mem rest key value h)

/-! ## C1 -/

/-- C1: after `loadGameState` gets a successful reply `data`, the cached board is
`data.board`, `currentTurn` is `data.turn` and `gameOver` is `data.game_over`,
so the three values are the same from any two prior states. -/
theorem loadGameState_overwrites_cache (env : Env) (data : ServerData) (g g' : ChessGame)
    (h : env.boardReply = .ok data) :
    ((loadGameState env g).board = data.board ∧
      (loadGameState env g).currentTurn = data.turn ∧
      (loadGameState env g).gameOver = data.game_over) ∧
    ((loadGameState env g').board = (loadGameState env g).board ∧
      (loadGameState env g').currentTurn = (loadGameState env g).currentTurn ∧
      (loadGameState env g').gameOver = (loadGameState env g).gameOver) := by
  obtain ⟨b, t, o⟩ := loadGameState_cache env data g h
  obtain ⟨b', t', o'⟩ := loadGameState_cache env data g' h
  exact ⟨⟨b, t, o⟩, b'.trans b.symm, t'.trans t.symm, o'.trans o.symm⟩

theorem loadGameState_overwrites_cache_witness :
    sampleEnv.boardReply = .ok sampleData ∧
    (((loadGameState sampleEnv staleGame).board = sampleData.board ∧
      (loadGameState sampleEnv staleGame).currentTurn = "white" ∧
      (loadGameState sampleEnv staleGame).gameOver = false) ∧
    ((loadGameState sampleEnv blankPage).board = (loadGameState sampleEnv staleGame).board ∧
      (loadGameState sampleEnv blankPage).currentTurn =
        (loadGameState sampleEnv staleGame).currentTurn ∧
      (loadGameState sampleEnv blankPage).gameOver =
        (loadGameState sampleEnv staleGame).gameOver)) :=
  ⟨rfl, loadGameState_overwrites_cache sampleEnv sampleData staleGame blankPage rfl⟩

/-! ## C2 -/

/-- C2, amended: when the page holds the 64 squares and the cached board is an
object (distinct keys) whose keys are plain names and whose pieces are not
named like inherited properties, after `updateBoardDisplay` the page still
holds the 64 squares, a square whose board entry is a piece shows that piece's
symbol (the raw piece letter when the table has none) and carries `has-piece`,
a square whose entry is absent or empty shows no text and lacks `has-piece`;
and what the squares show is the same from any other prior page with the same
board. -/
theorem updateBoardDisplay_matches_board (env : Env) (g : ChessGame)
    (hboard : plainBoard g.board)
    (hkeys : (g.board.map Prod.fst).Nodup)
    (hpage : squareNames g = createSquares.map (·.square)) :
    squareNames (updateBoardDisplay env g).state = createSquares.map (·.square) ∧
    (∀ el ∈ (updateBoardDisplay env g).state.squares,
      match g.board.pieceAt el.square with
      | some pieceData =>
        (match pieceSymbols.lookup pieceData.piece with
          | some symbol => el.textContent = symbol
          | none => el.textContent = pieceData.piece) ∧
        "has-piece" ∈ el.classes
      | none => el.textContent = "" ∧ "has-piece" ∉ el.classes) ∧
    (∀ (env' : Env) (g' : ChessGame), g'.board = g.board → squareNames g' = squareNames g →
      (updateBoardDisplay env' g').state.squares.map SquareEl.display =
        (updateBoardDisplay env g).state.squares.map SquareEl.display) := by
  obtain ⟨hplain, hpieces⟩ := hboard
  have hnames : (squareNames g).Nodup := by rw [hpage]; decide
  have hdisp := updateBoardDisplay_display env g hplain hkeys hnames
  refine ⟨?_, ?_, ?_⟩
  · rw [updateBoardDisplay_squareNames env g, hpage]
  · intro el hel
    have hmem : el.display ∈ (updateBoardDisplay env g).state.squares.map SquareEl.display :=
      List.mem_map.mpr ⟨el, hel, rfl⟩
    rw [hdisp] at hmem
    obtain ⟨name, _, hname⟩ := List.mem_map.mp hmem
    cases hp : g.board.pieceAt name with
    | none =>
      rw [hp] at hname
      simp only [SquareEl.display, Prod.mk.injEq] at hname
      obtain ⟨hsq, htext, hcls⟩ := hname
      rw [← hsq, hp]
      exact ⟨htext.symm, by simpa using hcls.symm⟩
    | some pieceData =>
      rw [hp] at hname
      simp only [SquareEl.display, Prod.mk.injEq] at hname
      obtain ⟨hsq, htext, hcls⟩ := hname
      rw [← hsq, hp]
      refine ⟨?_, by simpa using hcls.symm⟩
      have hentry : (name, some pieceData) ∈ g.board := by
        have hl : g.board.lookup name = some (some pieceData) := by
          unfold Board.pieceAt at hp
          cases hlook : g.board.lookup name with
          | none => rw [hlook] at hp; exact Option.noConfusion hp
          | some value =>
            rw [hlook] at hp
            cases value with
            | none => exact Option.noConfusion hp
            | some pd =>
              have : pd = pieceData := Option.some.inj hp
              rw [this]
        exact lookup_mem g.board name (some pieceData) hl
      have hsym := symbolOf_eq pieceData (hpieces _ hentry pieceData rfl)
      rw [htext] at hsym
      cases hl : pieceSymbols.lookup pieceData.piece with
      | none => rw [hl] at hsym; exact hsym
      | some symbol => rw [hl] at hsym; exact hsym
  · intro env' g' hb hsame
    have hplain' : ∀ entry ∈ g'.board, plainName entry.1 = true := by rw [hb]; exact hplain
    have hkeys' : (g'.board.map Prod.fst).Nodup := by rw [hb]; exact hkeys
    have hnames' : (squareNames g').Nodup := by rw [hsame]; exact hnames
    rw [updateBoardDisplay_display env' g' hplain' hkeys' hnames', hdisp, hb, hsame]

theorem updateBoardDisplay_matches_board_witness :
    (plainBoard staleGame.board ∧ (staleGame.board.map Prod.fst).Nodup ∧
      squareNames staleGame = createSquares.map (·.square)) ∧
    ∀ el ∈ (updateBoardDisplay sampleEnv staleGame).state.squares,
      match staleGame.board.pieceAt el.square with
      | some pieceData =>
        (match pieceSymbols.lookup pieceData.piece with
          | some symbol => el.textContent = symbol
          | none => el.textContent = pieceData.piece) ∧
        "has-piece" ∈ el.classes
      | none => el.textContent = "" ∧ "has-piece" ∉ el.classes :=
  have hboard : plainBoard staleGame.board :=
    ⟨by decide, fun entry hentry pieceData hpiece => by
      have he : entry = ("a1", some ⟨"R", "white"⟩) := by
        simpa [staleGame] using hentry
      subst he
      have hp : (⟨"R", "white"⟩ : PieceData) = pieceData := Option.some.inj hpiece
      rw [← hp]
      decide⟩
  ⟨⟨hboard, by decide, by decide⟩,
    (updateBoardDisplay_matches_board sampleEnv staleGame hboard (by decide) (by decide)).2.1⟩

/-- C2 as stated fails on boards outside the data model.  A piece named
`constructor` on e2 is drawn as the text of the inherited function, not as its
raw name; and after a first key that holds a double quote the repaint throws,
so the pawn cached on e2 is not drawn at all. -/
theorem board_outside_the_data_model_is_not_displayed :
    ((inheritedNameGame.board.map Prod.fst).Nodup ∧
      squareNames inheritedNameGame = createSquares.map (·.square) ∧
      inheritedNameGame.board.pieceAt "e2" = some ⟨"constructor", "white"⟩ ∧
      pieceSymbols.lookup "constructor" = none ∧
      ∃ el ∈ (updateBoardDisplay sampleEnv inheritedNameGame).state.squares,
        el.square = "e2" ∧ el.textContent = "function Object() \x7b [native code] \x7d") ∧
    ((quotedGame.board.map Prod.fst).Nodup ∧
      squareNames quotedGame = createSquares.map (·.square) ∧
      quotedGame.board.pieceAt "e2" = some ⟨"P", "white"⟩ ∧
      (updateBoardDisplay sampleEnv quotedGame).thrown =
        some "\x27[data-square=\x22a\x221\x22]\x27 is not a valid selector" ∧
      ∃ el ∈ (updateBoardDisplay sampleEnv quotedGame).state.squares,
        el.square = "e2" ∧ el.textContent = "" ∧ "has-piece" ∉ el.classes) := by
  decide

/-! ## Moves and clicks -/

/-- The `catch` block of `makeMove` shows one message and clears the selection;
apart from that only the squares and the log of requests change. -/
theorem makeMoveCatch_frame (env : Env) (message : String) (g : ChessGame) :
    ∃ squares sent,
      makeMoveCatch env message g =
        { g with shown := g.shown ++ ["Failed to make move: " ++ message],
                 selectedSquare := none, squares := squares, sent := sent } ∧
      moveRequests sent = moveRequests g.sent := by
  obtain ⟨sq, snt, hu, hm, _⟩ := updateBoardDisplay_frame env
    { showError ("Failed to make move: " ++ message) g with selectedSquare := none }
  simp only [makeMoveCatch]
  rw [hu]
  exact ⟨sq, snt, rfl, hm⟩

/-- The move requests `makeMove` sends: one, carrying its argument, exactly on
the player's turn. -/
theorem makeMove_moveRequests (env : Env) (moveUci : String) (g : ChessGame) :
    moveRequests (makeMove env moveUci g).sent =
      moveRequests g.sent ++ (if g.currentTurn = g.playerColor then [moveUci] else []) := by
  by_cases hturn : g.currentTurn = g.playerColor
  · have hne : (g.currentTurn != g.playerColor) = false := by simp [hturn]
    have hpost : moveRequests (g.sent ++ [Request.postMove moveUci]) =
        moveRequests g.sent ++ [moveUci] := by
      rw [moveRequests_append]; rfl
    rw [if_pos hturn]
    simp only [makeMove, hne, Bool.false_eq_true, if_false]
    cases env.moveReply with
    | ok result =>
      cases hs : result.success with
      | false =>
        simp only [hs, Bool.false_eq_true, if_false]
        obtain ⟨sq, snt, hu, hm, _⟩ := updateBoardDisplay_frame env
          { showError (jsOr result.error "Invalid move")
              { showAIThinking false g with
                sent := (showAIThinking false g).sent ++ [Request.postMove moveUci] } with
            selectedSquare := none }
        split
        · rw [hu]
          exact hm.trans hpost
        · rename_i message _
          obtain ⟨sq', snt', hc, hm'⟩ := makeMoveCatch_frame env message
            (updateBoardDisplay env
              { showError (jsOr result.error "Invalid move")
                  { showAIThinking false g with
                    sent := (showAIThinking false g).sent ++ [Request.postMove moveUci] } with
                selectedSquare := none }).state
          rw [hc]
          refine Eq.trans hm' ?_
          rw [hu]
          exact hm.trans hpost
      | true =>
        simp only [hs, if_true]
        have hload := (loadGameState_keeps env
          { addMoveToHistory moveUci result.ai_move
              { showAIThinking false g with
                sent := (showAIThinking false g).sent ++ [Request.postMove moveUci] } with
            selectedSquare := none }).2.2.2.2.2.2.2.2.2.2.2
        have hall : moveRequests (loadGameState env
            { addMoveToHistory moveUci result.ai_move
                { showAIThinking false g with
                  sent := (showAIThinking false g).sent ++ [Request.postMove moveUci] } with
              selectedSquare := none }).sent = moveRequests g.sent ++ [moveUci] :=
          hload.trans hpost
        split <;> split <;> exact hall
    | threw message =>
      simp only []
      obtain ⟨sq', snt', hc, hm'⟩ := makeMoveCatch_frame env message
        { showAIThinking false g with
          sent := (showAIThinking false g).sent ++ [Request.postMove moveUci] }
      rw [hc]
      exact hm'.trans hpost
  · have hne : (g.currentTurn != g.playerColor) = true := by simp [hturn]
    rw [if_neg hturn]
    simp only [makeMove, hne, if_true, List.append_nil]
    rfl

/-- The value of `selectedSquare` after `makeMove`. -/
theorem makeMove_selectedSquare (env : Env) (moveUci : String) (g : ChessGame) :
    (makeMove env moveUci g).selectedSquare =
      if g.currentTurn = g.playerColor then none else g.selectedSquare := by
  by_cases hturn : g.currentTurn = g.playerColor
  · have hne : (g.currentTurn != g.playerColor) = false := by simp [hturn]
    rw [if_pos hturn]
    simp only [makeMove, hne, Bool.false_eq_true, if_false]
    cases env.moveReply with
    | ok result =>
      cases hs : result.success with
      | false =>
        simp only [hs, Bool.false_eq_true, if_false]
        split
        · rw [updateBoardDisplay_selectedSquare]
        · rename_i message _
          obtain ⟨sq', snt', hc, _⟩ := makeMoveCatch_frame env message
            (updateBoardDisplay env
              { showError (jsOr result.error "Invalid move")
                  { showAIThinking false g with
                    sent := (showAIThinking false g).sent ++ [Request.postMove moveUci] } with
                selectedSquare := none }).state
          rw [hc]
      | true =>
        simp only [hs, if_true]
        have hload := (loadGameState_keeps env
          { addMoveToHistory moveUci result.ai_move
              { showAIThinking false g with
                sent := (showAIThinking false g).sent ++ [Request.postMove moveUci] } with
            selectedSquare := none }).1
        split <;> split <;> exact hload
    | threw message =>
      simp only []
      obtain ⟨sq', snt', hc, _⟩ := makeMoveCatch_frame env message
        { showAIThinking false g with
          sent := (showAIThinking false g).sent ++ [Request.postMove moveUci] }
      rw [hc]
  · have hne : (g.currentTurn != g.playerColor) = true := by simp [hturn]
    rw [if_neg hturn]
    simp only [makeMove, hne, if_true]
    rfl

/-! ## C10 -/

/-- C10, amended: on the player's turn and with a cached board whose keys are
plain names, when the reply to the move request has `success` false or the
request throws, `makeMove` leaves the cached board, `currentTurn`, `gameOver`,
`playerColor` and `moveHistory` as they were, sets `selectedSquare` to null,
and shows exactly one message, the one of `rejectionMessage`. -/
theorem makeMove_rejected_changes_selection_only (env : Env) (moveUci : String) (g : ChessGame)
    (hturn : g.currentTurn = g.playerColor)
    (hplain : ∀ entry ∈ g.board, plainName entry.1 = true)
    (hfail : ∀ result, env.moveReply = .ok result → result.success = false) :
    (makeMove env moveUci g).board = g.board ∧
    (makeMove env moveUci g).currentTurn = g.currentTurn ∧
    (makeMove env moveUci g).gameOver = g.gameOver ∧
    (makeMove env moveUci g).playerColor = g.playerColor ∧
    (makeMove env moveUci g).moveHistory = g.moveHistory ∧
    (makeMove env moveUci g).selectedSquare = none ∧
    (makeMove env moveUci g).shown = g.shown ++ [rejectionMessage env.moveReply] := by
  have hne : (g.currentTurn != g.playerColor) = false := by simp [hturn]
  simp only [makeMove, hne, Bool.false_eq_true, if_false]
  cases hr : env.moveReply with
  | ok result =>
    have hs := hfail result hr
    simp only [hs, Bool.false_eq_true, if_false]
    have hreturns := updateBoardDisplay_returns env
      { showError (jsOr result.error "Invalid move")
          { showAIThinking false g with
            sent := (showAIThinking false g).sent ++ [Request.postMove moveUci] } with
        selectedSquare := none } hplain (fun _ h => Option.noConfusion h)
    obtain ⟨sq, snt, hu, _⟩ := updateBoardDisplay_frame env
      { showError (jsOr result.error "Invalid move")
          { showAIThinking false g with
            sent := (showAIThinking false g).sent ++ [Request.postMove moveUci] } with
        selectedSquare := none }
    rw [hreturns]
    simp only []
    rw [hu]
    refine ⟨rfl, rfl, rfl, rfl, rfl, rfl, ?_⟩
    simp only [showError, showAIThinking, rejectionMessage, jsOr]
    cases result.error with
    | none => rfl
    | some text => by_cases ht : text = "" <;> simp [ht]
  | threw message =>
    simp only []
    obtain ⟨sq, snt, hc, _⟩ := makeMoveCatch_frame env message
      { showAIThinking false g with
        sent := (showAIThinking false g).sent ++ [Request.postMove moveUci] }
    rw [hc]
    exact ⟨rfl, rfl, rfl, rfl, rfl, rfl, rfl⟩

theorem makeMove_rejected_changes_selection_only_witness :
    (pickedGame.currentTurn = pickedGame.playerColor ∧
      (∀ entry ∈ pickedGame.board, plainName entry.1 = true) ∧
      sampleEnv.moveReply = .ok ⟨false, some "Illegal move", none, false, none⟩) ∧
    ((makeMove sampleEnv "e2e5" pickedGame).board = pickedGame.board ∧
    (makeMove sampleEnv "e2e5" pickedGame).currentTurn = pickedGame.currentTurn ∧
    (makeMove sampleEnv "e2e5" pickedGame).gameOver = pickedGame.gameOver ∧
    (makeMove sampleEnv "e2e5" pickedGame).playerColor = pickedGame.playerColor ∧
    (makeMove sampleEnv "e2e5" pickedGame).moveHistory = pickedGame.moveHistory ∧
    (makeMove sampleEnv "e2e5" pickedGame).selectedSquare = none ∧
    (makeMove sampleEnv "e2e5" pickedGame).shown =
      pickedGame.shown ++ [rejectionMessage sampleEnv.moveReply]) :=
  ⟨⟨by decide, by decide, rfl⟩,
    makeMove_rejected_changes_selection_only sampleEnv "e2e5" pickedGame (by decide)
      (by decide)
      (fun result h => by
        have h' : Fetched.ok ⟨false, some "Illegal move", none, false, none⟩ =
            Fetched.ok result := h
        injection h' with h'
        rw [← h'])⟩

/-- C10 as stated fails when a cached board key holds a double quote: the
repaint after the rejection throws inside the `try`, so the `catch` shows a
second message. -/
theorem rejected_move_after_quoted_key_shows_two_messages :
    quotedPickedGame.currentTurn = quotedPickedGame.playerColor ∧
    quotedPickedGame.selectedSquare = some "e2" ∧
    sampleEnv.moveReply = .ok ⟨false, some "Illegal move", none, false, none⟩ ∧
    (makeMove sampleEnv "e2e5" quotedPickedGame).shown =
      quotedPickedGame.shown ++
        ["Illegal move",
         "Failed to make move: \x27[data-square=\x22a\x221\x22]\x27 is not a valid selector"] := by
  refine ⟨by decide, by decide, rfl, by decide⟩

theorem ownPieceOnTurn_iff (g : ChessGame) (square : String) :
    ownPieceOnTurn g square = true ↔
      (∃ piece, g.board.pieceAt square = some piece ∧ piece.color = g.playerColor) ∧
        g.currentTurn = g.playerColor := by
  unfold ownPieceOnTurn
  cases g.board.pieceAt square with
  | none => simp
  | some piece => simp

/-- The move requests one click sends. -/
theorem handleSquareClick_moveRequests (env : Env) (square : String) (g : ChessGame) :
    moveRequests (handleSquareClick env square g).sent =
      moveRequests g.sent ++
        (if g.gameOver = false ∧ truthy g.selectedSquare = true ∧
            g.selectedSquare ≠ some square ∧ ownPieceOnTurn g square = false ∧
            g.currentTurn = g.playerColor
          then [g.selectedSquare.getD "" ++ square] else []) := by
  unfold handleSquareClick
  by_cases hover : g.gameOver = true
  · simp [hover]
  · by_cases hsel : truthy g.selectedSquare = true
    · by_cases hsame : g.selectedSquare = some square
      · have hsel' : truthy (some square) = true := hsame ▸ hsel
        simp only [hover, hsel', hsame, Bool.false_eq_true, if_false, if_true, Bool.not_true]
        rw [updateBoardDisplay_moveRequests]
        simp
      · by_cases hown : ownPieceOnTurn g square = true
        · simp only [hover, hsel, hsame, hown, Bool.false_eq_true, if_false, if_true,
            Bool.not_true]
          rw [updateBoardDisplay_moveRequests]
          simp
        · simp only [hover, hsel, hsame, hown, Bool.false_eq_true, if_false, if_true,
            Bool.not_true]
          rw [makeMove_moveRequests]
          simp [hover, hsame, hown]
    · by_cases hown : ownPieceOnTurn g square = true
      · simp only [hover, hsel, hown, Bool.false_eq_true, if_false, if_true, Bool.not_false]
        rw [updateBoardDisplay_moveRequests]
        simp [hsel]
      · simp [hover, hsel, hown]

/-- The value of `selectedSquare` after one click. -/
theorem handleSquareClick_selectedSquare (env : Env) (square : String) (g : ChessGame) :
    (handleSquareClick env square g).selectedSquare =
      if g.gameOver = true then g.selectedSquare
      else if truthy g.selectedSquare = false then
        (if ownPieceOnTurn g square = true then some square else g.selectedSquare)
      else if g.selectedSquare = some square then none
      else if ownPieceOnTurn g square = true then some square
      else if g.currentTurn = g.playerColor then none
      else g.selectedSquare := by
  unfold handleSquareClick
  by_cases hover : g.gameOver = true
  · simp [hover]
  · by_cases hsel : truthy g.selectedSquare = true
    · by_cases hsame : g.selectedSquare = some square
      · have hsel' : truthy (some square) = true := hsame ▸ hsel
        simp only [hover, hsel', hsame, Bool.false_eq_true, if_false, if_true, Bool.not_true,
          Bool.true_eq_false]
        rw [updateBoardDisplay_selectedSquare]
      · by_cases hown : ownPieceOnTurn g square = true
        · simp only [hover, hsel, hsame, hown, Bool.false_eq_true, if_false, if_true,
            Bool.not_true, Bool.true_eq_false]
          rw [updateBoardDisplay_selectedSquare]
        · simp only [hover, hsel, hsame, hown, Bool.false_eq_true, if_false, if_true,
            Bool.not_true, Bool.true_eq_false]
          rw [makeMove_selectedSquare]
    · by_cases hown : ownPieceOnTurn g square = true
      · have hsel' : truthy g.selectedSquare = false := by simpa using hsel
        simp only [hover, hsel', hown, Bool.false_eq_true, if_false, if_true, Bool.not_false]
        rw [updateBoardDisplay_selectedSquare]
      · have hsel' : truthy g.selectedSquare = false := by simpa using hsel
        simp [hover, hsel', hown]

theorem boardSquareNames_length_two : ∀ name ∈ boardSquareNames, name.length = 2 := by
  decide

theorem truthy_iff (value : Option String) :
    truthy value = true ↔ ∃ text, value = some text ∧ text ≠ "" := by
  cases value with
  | none => simp [truthy]
  | some text => simp [truthy]

/-! ## C3 -/

/-- C3: with a board square `origin` selected, a click on a board square
`destination` sends at most one move request, and the move it carries is
`origin` followed by `destination`: four characters, two for each square. -/
theorem click_move_is_origin_then_destination (env : Env) (g : ChessGame)
    (origin destination : String)
    (horigin : origin ∈ boardSquareNames) (hdestination : destination ∈ boardSquareNames)
    (hselected : g.selectedSquare = some origin) :
    (moveRequests (handleSquareClick env destination g).sent = moveRequests g.sent ∨
      moveRequests (handleSquareClick env destination g).sent =
        moveRequests g.sent ++ [origin ++ destination]) ∧
    (origin ++ destination).length = 4 ∧ origin.length = 2 ∧ destination.length = 2 := by
  have ho := boardSquareNames_length_two origin horigin
  have hd := boardSquareNames_length_two destination hdestination
  refine ⟨?_, by rw [String.length_append, ho, hd], ho, hd⟩
  rw [handleSquareClick_moveRequests]
  split
  · right
    rw [hselected]; rfl
  · left
    simp

theorem click_move_is_origin_then_destination_witness :
    ("e2" ∈ boardSquareNames ∧ "e4" ∈ boardSquareNames ∧
      pickedGame.selectedSquare = some "e2") ∧
    ((moveRequests (handleSquareClick sampleEnv "e4" pickedGame).sent =
        moveRequests pickedGame.sent ∨
      moveRequests (handleSquareClick sampleEnv "e4" pickedGame).sent =
        moveRequests pickedGame.sent ++ ["e2" ++ "e4"]) ∧
    ("e2" ++ "e4").length = 4 ∧ "e2".length = 2 ∧ "e4".length = 2) :=
  ⟨⟨by decide, by decide, by decide⟩,
    click_move_is_origin_then_destination sampleEnv pickedGame "e2" "e4"
      (by decide) (by decide) (by decide)⟩

/-! ## C4 -/

/-- C4: a click on `square` sends a move request if and only if the game is not
over, a square is selected, `square` is not the selected one, `currentTurn`
equals `playerColor`, and the cached board holds no piece of `playerColor` on
`square`; otherwise it sends none, and the `legalMoves` field has no part in
what is sent. -/
theorem handleSquareClick_forwards_iff (env : Env) (square : String) (g : ChessGame) :
    ((∃ move, moveRequests (handleSquareClick env square g).sent =
        moveRequests g.sent ++ [move]) ↔
      (g.gameOver = false ∧ (∃ selected, g.selectedSquare = some selected ∧ selected ≠ "") ∧
        g.selectedSquare ≠ some square ∧ g.currentTurn = g.playerColor ∧
        ¬ ∃ piece, g.board.pieceAt square = some piece ∧ piece.color = g.playerColor)) ∧
    ((¬ ∃ move, moveRequests (handleSquareClick env square g).sent =
        moveRequests g.sent ++ [move]) →
      moveRequests (handleSquareClick env square g).sent = moveRequests g.sent) ∧
    (∀ legalMoves : List String,
      moveRequests (handleSquareClick env square { g with legalMoves := legalMoves }).sent =
        moveRequests (handleSquareClick env square g).sent) := by
  have hcond : (g.gameOver = false ∧ truthy g.selectedSquare = true ∧
        g.selectedSquare ≠ some square ∧ ownPieceOnTurn g square = false ∧
        g.currentTurn = g.playerColor) ↔
      (g.gameOver = false ∧ (∃ selected, g.selectedSquare = some selected ∧ selected ≠ "") ∧
        g.selectedSquare ≠ some square ∧ g.currentTurn = g.playerColor ∧
        ¬ ∃ piece, g.board.pieceAt square = some piece ∧ piece.color = g.playerColor) := by
    rw [truthy_iff]
    constructor
    · rintro ⟨h1, h2, h3, h4, h5⟩
      refine ⟨h1, h2, h3, h5, ?_⟩
      intro hp
      have := (ownPieceOnTurn_iff g square).mpr ⟨hp, h5⟩
      rw [h4] at this
      exact Bool.noConfusion this
    · rintro ⟨h1, h2, h3, h5, h6⟩
      refine ⟨h1, h2, h3, ?_, h5⟩
      cases hown : ownPieceOnTurn g square with
      | false => rfl
      | true => exact absurd ((ownPieceOnTurn_iff g square).mp hown).1 h6
  have hne : ∀ (l : List String) (move : String), l ≠ l ++ [move] := by
    intro l move h
    have := congrArg List.length h
    simp at this
  refine ⟨?_, ?_, ?_⟩
  · rw [← hcond, handleSquareClick_moveRequests]
    constructor
    · rintro ⟨move, hmove⟩
      by_contra hc
      rw [if_neg hc, List.append_nil] at hmove
      exact hne _ _ hmove
    · intro hc
      rw [if_pos hc]
      exact ⟨_, rfl⟩
  · intro hnone
    rw [handleSquareClick_moveRequests]
    split
    · rename_i hc
      exfalso
      apply hnone
      rw [handleSquareClick_moveRequests, if_pos hc]
      exact ⟨_, rfl⟩
    · simp
  · intro legalMoves
    rw [handleSquareClick_moveRequests, handleSquareClick_moveRequests]
    rfl

theorem handleSquareClick_forwards_iff_witness :
    (¬ ∃ move, moveRequests (handleSquareClick sampleEnv "e2" freshGame).sent =
        moveRequests freshGame.sent ++ [move]) ∧
    moveRequests (handleSquareClick sampleEnv "e2" freshGame).sent =
      moveRequests freshGame.sent :=
  have hnone : ¬ ∃ move, moveRequests (handleSquareClick sampleEnv "e2" freshGame).sent =
      moveRequests freshGame.sent ++ [move] := fun h =>
    absurd ((handleSquareClick_forwards_iff sampleEnv "e2" freshGame).1.mp h).2.1
      (by decide)
  ⟨hnone, (handleSquareClick_forwards_iff sampleEnv "e2" freshGame).2.1 hnone⟩


/-! ## C9 -/

/-- One click either selects the clicked square (an own piece on the own
turn, and a repaint), or keeps the selection, or clears it. -/
theorem handleSquareClick_selection_cases (env : Env) (square : String) (g : ChessGame) :
    (ownPieceOnTurn g square = true ∧ handleSquareClick env square g =
        (updateBoardDisplay env { g with selectedSquare := some square }).state) ∨
    (handleSquareClick env square g).selectedSquare = g.selectedSquare ∨
    (handleSquareClick env square g).selectedSquare = none := by
  by_cases hover : g.gameOver = true
  · right; left
    rw [handleSquareClick_selectedSquare, if_pos hover]
  · by_cases hsel : truthy g.selectedSquare = true
    · by_cases hsame : g.selectedSquare = some square
      · right; right
        rw [handleSquareClick_selectedSquare, if_neg hover, if_neg (by simp [hsel]),
          if_pos hsame]
      · by_cases hown : ownPieceOnTurn g square = true
        · left
          refine ⟨hown, ?_⟩
          unfold handleSquareClick
          simp only [hover, hsel, hsame, hown, Bool.false_eq_true, if_false, if_true,
            Bool.not_true]
        · rw [handleSquareClick_selectedSquare, if_neg hover, if_neg (by simp [hsel]),
            if_neg hsame, if_neg hown]
          by_cases hturn : g.currentTurn = g.playerColor
          · right; right; rw [if_pos hturn]
          · right; left; rw [if_neg hturn]
    · have hsel' : truthy g.selectedSquare = false := by simpa using hsel
      by_cases hown : ownPieceOnTurn g square = true
      · left
        refine ⟨hown, ?_⟩
        unfold handleSquareClick
        simp only [hover, hsel', hown, Bool.false_eq_true, if_false, if_true, Bool.not_false]
      · right; left
        rw [handleSquareClick_selectedSquare, if_neg hover, if_pos hsel', if_neg hown]

/-- C9, amended: when a click leaves `selectedSquare` with a non-null value
other than the one it had, that value is the clicked square, the cached board
holds a piece of `playerColor` on it and `currentTurn` equals `playerColor`,
before and after the click; while the game is not over, a click on the
selected board square sets `selectedSquare` to null; and when the game is over
the click is ignored: the whole state, the selection included, stays as it was. -/
theorem handleSquareClick_selects_own_piece (env : Env) (square : String) (g : ChessGame) :
    (∀ value, (handleSquareClick env square g).selectedSquare = some value →
      g.selectedSquare ≠ some value →
      value = square ∧
      (∃ piece, g.board.pieceAt square = some piece ∧ piece.color = g.playerColor) ∧
      g.currentTurn = g.playerColor ∧
      (∃ piece, (handleSquareClick env square g).board.pieceAt square = some piece ∧
        piece.color = (handleSquareClick env square g).playerColor) ∧
      (handleSquareClick env square g).currentTurn =
        (handleSquareClick env square g).playerColor) ∧
    (g.gameOver = false → square ∈ boardSquareNames → g.selectedSquare = some square →
      (handleSquareClick env square g).selectedSquare = none) ∧
    (g.gameOver = true → handleSquareClick env square g = g) := by
  refine ⟨?_, ?_, ?_⟩
  · intro value hafter hbefore
    rcases handleSquareClick_selection_cases env square g with ⟨hown, heq⟩ | hkeep | hnone
    · obtain ⟨hpiece, hturn⟩ := (ownPieceOnTurn_iff g square).mp hown
      obtain ⟨sq, snt, hu, _⟩ := updateBoardDisplay_frame env
        { g with selectedSquare := some square }
      rw [heq, hu] at hafter ⊢
      have hv : some square = some value := hafter
      exact ⟨(Option.some.inj hv).symm, hpiece, hturn, hpiece, hturn⟩
    · rw [hkeep] at hafter
      exact absurd hafter hbefore
    · rw [hnone] at hafter
      exact Option.noConfusion hafter
  · intro hover hsquare hsel
    have hne : square ≠ "" := by
      intro h
      have := boardSquareNames_length_two square hsquare
      rw [h] at this
      exact absurd this (by decide)
    have ht : truthy g.selectedSquare = true := by
      rw [truthy_iff]; exact ⟨square, hsel, hne⟩
    rw [handleSquareClick_selectedSquare, if_neg (by simp [hover]), if_neg (by simp [ht]),
      if_pos hsel]
  · intro hover
    simp only [handleSquareClick, hover, if_true]

theorem handleSquareClick_selects_own_piece_witness :
    ((handleSquareClick sampleEnv "e2" freshGame).selectedSquare = some "e2" ∧
      freshGame.selectedSquare ≠ some "e2" ∧
      "e2" = "e2" ∧
      (∃ piece, freshGame.board.pieceAt "e2" = some piece ∧
        piece.color = freshGame.playerColor) ∧
      freshGame.currentTurn = freshGame.playerColor) ∧
    (pickedGame.gameOver = false ∧ "e2" ∈ boardSquareNames ∧
      pickedGame.selectedSquare = some "e2" ∧
      (handleSquareClick sampleEnv "e2" pickedGame).selectedSquare = none) ∧
    (overGame.gameOver = true ∧ handleSquareClick sampleEnv "e2" overGame = overGame) :=
  have h1 := (handleSquareClick_selects_own_piece sampleEnv "e2" freshGame).1 "e2"
    (by decide) (by decide)
  ⟨⟨by decide, by decide, h1.1, h1.2.1, h1.2.2.1⟩,
    ⟨by decide, by decide, by decide,
      (handleSquareClick_selects_own_piece sampleEnv "e2" pickedGame).2.1
        (by decide) (by decide) (by decide)⟩,
    by decide, (handleSquareClick_selects_own_piece sampleEnv "e2" overGame).2.2 (by decide)⟩

/-- C9 as stated fails once the game is over: after the pawn on e2 was picked
and a poll reported the end of the game, a click on the selected square e2
leaves `selectedSquare` at e2. -/
theorem click_on_selected_square_after_game_over :
    "e2" ∈ boardSquareNames ∧ overGame.gameOver = true ∧
    overGame.selectedSquare = some "e2" ∧
    (handleSquareClick sampleEnv "e2" overGame).selectedSquare = some "e2" := by
  decide


/-! ## C5 -/

/-- C5: whatever the page and the replies, after `initializeBoard` the page holds
exactly 64 squares, named a8, b8, ..., h8, a7, ..., h1 in this order: the names
are pairwise distinct, and a name is among them exactly when it is a file
letter a..h followed by a rank 1..8. -/
theorem initializeBoard_creates_64_squares (env : Env) (g : ChessGame) :
    squareNames (initializeBoard env g) =
      ["a8", "b8", "c8", "d8", "e8", "f8", "g8", "h8",
       "a7", "b7", "c7", "d7", "e7", "f7", "g7", "h7",
       "a6", "b6", "c6", "d6", "e6", "f6", "g6", "h6",
       "a5", "b5", "c5", "d5", "e5", "f5", "g5", "h5",
       "a4", "b4", "c4", "d4", "e4", "f4", "g4", "h4",
       "a3", "b3", "c3", "d3", "e3", "f3", "g3", "h3",
       "a2", "b2", "c2", "d2", "e2", "f2", "g2", "h2",
       "a1", "b1", "c1", "d1", "e1", "f1", "g1", "h1"] ∧
    (initializeBoard env g).squares.length = 64 ∧
    (squareNames (initializeBoard env g)).Nodup ∧
    (∀ name : String, name ∈ squareNames (initializeBoard env g) ↔
      ∃ file ∈ ['a', 'b', 'c', 'd', 'e', 'f', 'g', 'h'], ∃ rank ∈ [1, 2, 3, 4, 5, 6, 7, 8],
        name = String.singleton file ++ toString rank) := by
  have hnames : squareNames (initializeBoard env g) = boardSquareNames := by
    unfold initializeBoard
    rw [loadGameState_squareNames]
    rfl
  have hlen : (initializeBoard env g).squares.length = 64 := by
    have := congrArg List.length hnames
    rw [squareNames, List.length_map] at this
    rw [this]; decide
  refine ⟨?_, hlen, ?_, ?_⟩
  · rw [hnames]; decide
  · rw [hnames]; decide
  · intro name
    rw [hnames]
    have hlist : boardSquareNames =
        [8, 7, 6, 5, 4, 3, 2, 1].flatMap (fun rank =>
          ['a', 'b', 'c', 'd', 'e', 'f', 'g', 'h'].map (fun file =>
            String.singleton file ++ toString rank)) := by decide
    rw [hlist]
    simp only [List.mem_flatMap, List.mem_map]
    constructor
    · rintro ⟨rank, hrank, file, hfile, rfl⟩
      refine ⟨file, hfile, rank, ?_, rfl⟩
      simp only [List.mem_cons, List.mem_singleton, List.not_mem_nil, or_false] at hrank ⊢
      omega
    · rintro ⟨file, hfile, rank, hrank, rfl⟩
      refine ⟨rank, ?_, file, hfile, rfl⟩
      simp only [List.mem_cons, List.mem_singleton, List.not_mem_nil, or_false] at hrank ⊢
      omega

/-! ## C6 -/

/-- C6: when the reset request is answered with an ok response, after
`resetGame(c)` for `c` white or black, `playerColor` is `c`, `selectedSquare`
is null, `moveHistory` and both captured-piece lists are empty (on the page as
well), the game-over modal is hidden, and the colour button reads
`Play as Black` for white and `Play as White` for black; the handler of the
colour button resets to the colour opposite to `playerColor`, so the button
then offers the colour opposite to the new `playerColor`. -/
theorem resetGame_ok_resets (env : Env) (c : String) (g : ChessGame)
    (hc : c = "white" ∨ c = "black") (hok : env.resetReply = .ok true) :
    ((resetGame env c g).playerColor = c ∧
      (resetGame env c g).selectedSquare = none ∧
      (resetGame env c g).moveHistory = [] ∧
      (resetGame env c g).capturedPiecesWhite = [] ∧
      (resetGame env c g).capturedPiecesBlack = [] ∧
      (resetGame env c g).moveList = [] ∧
      (resetGame env c g).capturedWhite = "" ∧
      (resetGame env c g).capturedBlack = "" ∧
      (resetGame env c g).gameOverModalHidden = true ∧
      ((c = "white" ∧ (resetGame env c g).colorBtn = "Play as Black") ∨
        (c = "black" ∧ (resetGame env c g).colorBtn = "Play as White"))) ∧
    ((colorBtnClick env g).playerColor = (if g.playerColor = "white" then "black" else "white") ∧
      (colorBtnClick env g).colorBtn =
        (if (colorBtnClick env g).playerColor = "white" then "Play as Black"
          else "Play as White")) := by
  have key : ∀ color : String,
      (resetGame env color g).playerColor = color ∧
      (resetGame env color g).selectedSquare = none ∧
      (resetGame env color g).moveHistory = [] ∧
      (resetGame env color g).capturedPiecesWhite = [] ∧
      (resetGame env color g).capturedPiecesBlack = [] ∧
      (resetGame env color g).moveList = [] ∧
      (resetGame env color g).capturedWhite = "" ∧
      (resetGame env color g).capturedBlack = "" ∧
      (resetGame env color g).gameOverModalHidden = true ∧
      (resetGame env color g).colorBtn =
        (if color = "white" then "Play as Black" else "Play as White") := by
    intro color
    simp only [resetGame, hok, if_true]
    obtain ⟨h1, h2, h3, h4, h5, h6, h7, h8, h9, _⟩ := loadGameState_keeps env
      { g with sent := g.sent ++ [Request.postReset color], playerColor := color,
               selectedSquare := none, moveHistory := [], capturedPiecesWhite := [],
               capturedPiecesBlack := [], moveList := [], capturedWhite := "",
               capturedBlack := "", gameOverModalHidden := true }
    exact ⟨h2, h1, h3, h4, h5, h6, h7, h8, h9, trivial⟩
  obtain ⟨k1, k2, k3, k4, k5, k6, k7, k8, k9, k10⟩ := key c
  refine ⟨⟨k1, k2, k3, k4, k5, k6, k7, k8, k9, ?_⟩, ?_, ?_⟩
  · rcases hc with hw | hb
    · left
      exact ⟨hw, by rw [k10, if_pos hw]⟩
    · right
      have : c ≠ "white" := by rw [hb]; decide
      exact ⟨hb, by rw [k10, if_neg this]⟩
  · exact (key _).1
  · unfold colorBtnClick
    rw [(key _).2.2.2.2.2.2.2.2.2, (key _).1]

theorem resetGame_ok_resets_witness :
    (("black" = "white" ∨ "black" = "black") ∧ sampleEnv.resetReply = .ok true) ∧
    ((resetGame sampleEnv "black" overGame).playerColor = "black" ∧
      (resetGame sampleEnv "black" overGame).selectedSquare = none ∧
      (resetGame sampleEnv "black" overGame).moveHistory = [] ∧
      (resetGame sampleEnv "black" overGame).capturedPiecesWhite = [] ∧
      (resetGame sampleEnv "black" overGame).capturedPiecesBlack = [] ∧
      (resetGame sampleEnv "black" overGame).moveList = [] ∧
      (resetGame sampleEnv "black" overGame).capturedWhite = "" ∧
      (resetGame sampleEnv "black" overGame).capturedBlack = "" ∧
      (resetGame sampleEnv "black" overGame).gameOverModalHidden = true ∧
      (("black" = "white" ∧ (resetGame sampleEnv "black" overGame).colorBtn = "Play as Black") ∨
        ("black" = "black" ∧
          (resetGame sampleEnv "black" overGame).colorBtn = "Play as White"))) :=
  ⟨⟨Or.inr rfl, rfl⟩,
    (resetGame_ok_resets sampleEnv "black" overGame (Or.inr rfl) rfl).1⟩

/-! ## C7 -/

theorem notify_fields (uiManager : Bool) (message type : String) (m : GameManager) :
    (m.notify uiManager message type).reconnectAttempts = m.reconnectAttempts ∧
    (m.notify uiManager message type).maxReconnectAttempts = m.maxReconnectAttempts ∧
    (m.notify uiManager message type).retries = m.retries ∧
    (m.notify uiManager message type).notifications =
      m.notifications ++ (if uiManager = true then [(message, type)] else []) := by
  unfold GameManager.notify
  cases uiManager <;> simp

/-- A failed attempt below the limit: one more attempt counted, one retry scheduled. -/
theorem initializeConnection_failed_below (uiManager : Bool) (reply : Fetched Bool)
    (m : GameManager) (hfail : checkConnection reply = false)
    (hbelow : m.reconnectAttempts < m.maxReconnectAttempts) :
    (initializeConnection uiManager reply m).reconnectAttempts = m.reconnectAttempts + 1 ∧
    (initializeConnection uiManager reply m).maxReconnectAttempts = m.maxReconnectAttempts ∧
    (initializeConnection uiManager reply m).retries =
      m.retries ++ [2000 * (m.reconnectAttempts + 1)] := by
  simp only [initializeConnection, hfail, Bool.false_eq_true, if_false, handleConnectionError,
    hbelow, if_true]
  obtain ⟨h1, h2, h3, _⟩ := notify_fields uiManager
    ("Connection lost. Retrying... (" ++ toString (m.reconnectAttempts + 1) ++ "/" ++
      toString m.maxReconnectAttempts ++ ")") "warning"
    { m with connectionStatus := "error", reconnectAttempts := m.reconnectAttempts + 1 }
  refine ⟨h1, h2, ?_⟩
  simp only [h1, h3]

/-- A failed attempt at the limit: nothing scheduled, the closing message shown
when the UI manager exists. -/
theorem initializeConnection_failed_at_limit (uiManager : Bool) (reply : Fetched Bool)
    (m : GameManager) (hfail : checkConnection reply = false)
    (hlimit : ¬ m.reconnectAttempts < m.maxReconnectAttempts) :
    (initializeConnection uiManager reply m).reconnectAttempts = m.reconnectAttempts ∧
    (initializeConnection uiManager reply m).maxReconnectAttempts = m.maxReconnectAttempts ∧
    (initializeConnection uiManager reply m).retries = m.retries ∧
    (initializeConnection uiManager reply m).notifications =
      m.notifications ++ (if uiManager = true then [unableMessage] else []) := by
  simp only [initializeConnection, hfail, Bool.false_eq_true, if_false, handleConnectionError,
    hlimit]
  exact notify_fields uiManager _ _ { m with connectionStatus := "error" }

theorem initializeConnection_succeeded (uiManager : Bool) (reply : Fetched Bool)
    (m : GameManager) (hok : checkConnection reply = true) :
    (initializeConnection uiManager reply m).reconnectAttempts = 0 ∧
    (initializeConnection uiManager reply m).maxReconnectAttempts = m.maxReconnectAttempts ∧
    (initializeConnection uiManager reply m).retries = m.retries := by
  simp only [initializeConnection, hok, if_true]
  obtain ⟨h1, h2, h3, _⟩ := notify_fields uiManager "Connected to game server" "success"
    { m with connectionStatus := "connected", reconnectAttempts := 0 }
  exact ⟨h1, h2, h3⟩

/-- The bound kept by every connection attempt. -/
theorem initializeConnection_bound (uiManager : Bool) (reply : Fetched Bool) (m : GameManager)
    (h : 0 ≤ m.reconnectAttempts ∧ m.reconnectAttempts ≤ 5 ∧ m.maxReconnectAttempts = 5) :
    0 ≤ (initializeConnection uiManager reply m).reconnectAttempts ∧
    (initializeConnection uiManager reply m).reconnectAttempts ≤ 5 ∧
    (initializeConnection uiManager reply m).maxReconnectAttempts = 5 := by
  obtain ⟨h0, h5, hmax⟩ := h
  cases hc : checkConnection reply with
  | true =>
    obtain ⟨a, b, _⟩ := initializeConnection_succeeded uiManager reply m hc
    rw [a, b]; exact ⟨le_refl 0, by decide, hmax⟩
  | false =>
    by_cases hbelow : m.reconnectAttempts < m.maxReconnectAttempts
    · obtain ⟨a, b, _⟩ := initializeConnection_failed_below uiManager reply m hc hbelow
      rw [a, b]
      rw [hmax] at hbelow
      exact ⟨by omega, by omega, hmax⟩
    · obtain ⟨a, b, _⟩ := initializeConnection_failed_at_limit uiManager reply m hc hbelow
      rw [a, b]; exact ⟨h0, h5, hmax⟩

theorem connectionAttempts_bound (uiManager : Bool) :
    ∀ (replies : List (Fetched Bool)) (m : GameManager),
      (0 ≤ m.reconnectAttempts ∧ m.reconnectAttempts ≤ 5 ∧ m.maxReconnectAttempts = 5) →
      0 ≤ (connectionAttempts uiManager replies m).reconnectAttempts ∧
      (connectionAttempts uiManager replies m).reconnectAttempts ≤ 5 ∧
      (connectionAttempts uiManager replies m).maxReconnectAttempts = 5
  | [], _, h => h
  | reply :: replies, m, h =>
    connectionAttempts_bound uiManager replies _ (initializeConnection_bound uiManager reply m h)

/-- An unbroken run of failures counts attempts and retries up to the limit and no further. -/
theorem connectionAttempts_failures (uiManager : Bool) :
    ∀ (replies : List (Fetched Bool)) (m : GameManager),
      (∀ reply ∈ replies, checkConnection reply = false) →
      (0 ≤ m.reconnectAttempts ∧ m.reconnectAttempts ≤ 5 ∧ m.maxReconnectAttempts = 5) →
      (m.reconnectAttempts + replies.length ≤ 5 →
        (connectionAttempts uiManager replies m).reconnectAttempts =
            m.reconnectAttempts + replies.length ∧
          (connectionAttempts uiManager replies m).retries.length =
            m.retries.length + replies.length) ∧
      (5 ≤ m.reconnectAttempts + replies.length →
        (connectionAttempts uiManager replies m).reconnectAttempts = 5 ∧
          ((connectionAttempts uiManager replies m).retries.length : Int) =
            m.retries.length + (5 - m.reconnectAttempts))
  | [], m, _, h => by
    simp only [connectionAttempts, List.foldl_nil, List.length_nil]
    constructor
    · intro _; simp
    · intro h5; constructor <;> omega
  | reply :: replies, m, hfail, h => by
    have hr : checkConnection reply = false := hfail reply (List.mem_cons_self _ _)
    have hrest : ∀ r ∈ replies, checkConnection r = false :=
      fun r hr => hfail r (List.mem_cons_of_mem _ hr)
    have hb := initializeConnection_bound uiManager reply m h
    have ih := connectionAttempts_failures uiManager replies
      (initializeConnection uiManager reply m) hrest hb
    have hstep : connectionAttempts uiManager (reply :: replies) m =
        connectionAttempts uiManager replies (initializeConnection uiManager reply m) := rfl
    rw [hstep]
    obtain ⟨h0, h5, hmax⟩ := h
    by_cases hbelow : m.reconnectAttempts < m.maxReconnectAttempts
    · obtain ⟨a, _, c⟩ := initializeConnection_failed_below uiManager reply m hr hbelow
      rw [a] at ih
      have hlen : (initializeConnection uiManager reply m).retries.length =
          m.retries.length + 1 := by rw [c]; simp
      rw [hlen] at ih
      rw [hmax] at hbelow
      simp only [List.length_cons, Nat.cast_add, Nat.cast_one] at ih ⊢
      constructor
      · intro hle
        obtain ⟨x, y⟩ := ih.1 (by omega)
        exact ⟨by omega, by omega⟩
      · intro hge
        obtain ⟨x, y⟩ := ih.2 (by omega)
        exact ⟨x, by omega⟩
    · obtain ⟨a, _, c, _⟩ := initializeConnection_failed_at_limit uiManager reply m hr hbelow
      rw [a, c] at ih
      rw [hmax] at hbelow
      simp only [List.length_cons, Nat.cast_add, Nat.cast_one] at ih ⊢
      constructor
      · intro hle; omega
      · intro hge
        exact ih.2 (by omega)

/-- C7, amended: in every state reached from a new `GameManager` by connection
attempts, `0 <= reconnectAttempts <= 5`; a failed attempt from such a state
schedules a retry exactly when `reconnectAttempts` was below 5, and otherwise
schedules none and shows the closing message, provided `window.uiManager`
exists; a successful attempt sets `reconnectAttempts` to 0; an unbroken run of
failures schedules as many retries as it has failures, up to 5 and no more. -/
theorem reconnect_attempts_bounded (uiManager : Bool) (replies : List (Fetched Bool))
    (reply : Fetched Bool) :
    (0 ≤ (reachedManager uiManager replies).reconnectAttempts ∧
      (reachedManager uiManager replies).reconnectAttempts ≤ 5) ∧
    (checkConnection reply = false →
      ((reachedManager uiManager replies).reconnectAttempts < 5 ∧
        (initializeConnection uiManager reply (reachedManager uiManager replies)).retries =
          (reachedManager uiManager replies).retries ++
            [2000 * ((reachedManager uiManager replies).reconnectAttempts + 1)]) ∨
      ((reachedManager uiManager replies).reconnectAttempts = 5 ∧
        (initializeConnection uiManager reply (reachedManager uiManager replies)).retries =
          (reachedManager uiManager replies).retries ∧
        (initializeConnection uiManager reply (reachedManager uiManager replies)).notifications =
          (reachedManager uiManager replies).notifications ++
            (if uiManager = true then [unableMessage] else []))) ∧
    (checkConnection reply = true →
      (initializeConnection uiManager reply (reachedManager uiManager replies)).reconnectAttempts
        = 0) ∧
    ((∀ failed ∈ replies, checkConnection failed = false) →
      (reachedManager uiManager replies).retries.length ≤ 5 ∧
      (replies.length ≤ 5 →
        (reachedManager uiManager replies).retries.length = replies.length) ∧
      (5 ≤ replies.length →
        (reachedManager uiManager replies).retries.length = 5 ∧
        (reachedManager uiManager replies).reconnectAttempts = 5)) := by
  have hnew : 0 ≤ GameManager.new.reconnectAttempts ∧ GameManager.new.reconnectAttempts ≤ 5 ∧
      GameManager.new.maxReconnectAttempts = 5 := by decide
  obtain ⟨h0, h5, hmax⟩ := connectionAttempts_bound uiManager replies GameManager.new hnew
  refine ⟨⟨h0, h5⟩, ?_, ?_, ?_⟩
  · intro hfail
    by_cases hbelow : (reachedManager uiManager replies).reconnectAttempts <
        (reachedManager uiManager replies).maxReconnectAttempts
    · left
      obtain ⟨_, _, c⟩ := initializeConnection_failed_below uiManager reply _ hfail hbelow
      refine ⟨?_, c⟩
      have hm : (reachedManager uiManager replies).maxReconnectAttempts = 5 := hmax
      rw [hm] at hbelow
      exact hbelow
    · right
      obtain ⟨_, _, c, d⟩ := initializeConnection_failed_at_limit uiManager reply _ hfail hbelow
      refine ⟨?_, c, d⟩
      have hm : (reachedManager uiManager replies).maxReconnectAttempts = 5 := hmax
      rw [hm] at hbelow
      have h5' : (reachedManager uiManager replies).reconnectAttempts ≤ 5 := h5
      omega
  · intro hok
    exact (initializeConnection_succeeded uiManager reply _ hok).1
  · intro hall
    obtain ⟨hle, hge⟩ := connectionAttempts_failures uiManager replies GameManager.new hall hnew
    have hz : GameManager.new.reconnectAttempts = 0 := rfl
    have hr : GameManager.new.retries.length = 0 := rfl
    rw [hz, hr] at hle hge
    unfold reachedManager
    by_cases hn : replies.length ≤ 5
    · obtain ⟨_, y⟩ := hle (by omega)
      refine ⟨by omega, fun _ => by omega, fun h => ?_⟩
      obtain ⟨x', y'⟩ := hge (by omega)
      exact ⟨by omega, x'⟩
    · obtain ⟨x', y'⟩ := hge (by omega)
      exact ⟨by omega, fun h => absurd h hn, fun _ => ⟨by omega, x'⟩⟩

theorem reconnect_attempts_bounded_witness :
    (checkConnection (.threw "Failed to fetch") = false ∧
      ∀ failed ∈ sixFailures, checkConnection failed = false) ∧
    (((reachedManager true sixFailures).reconnectAttempts < 5 ∧
        (initializeConnection true (.threw "Failed to fetch")
            (reachedManager true sixFailures)).retries =
          (reachedManager true sixFailures).retries ++
            [2000 * ((reachedManager true sixFailures).reconnectAttempts + 1)]) ∨
      ((reachedManager true sixFailures).reconnectAttempts = 5 ∧
        (initializeConnection true (.threw "Failed to fetch")
            (reachedManager true sixFailures)).retries =
          (reachedManager true sixFailures).retries ∧
        (initializeConnection true (.threw "Failed to fetch")
            (reachedManager true sixFailures)).notifications =
          (reachedManager true sixFailures).notifications ++
            (if true = true then [unableMessage] else []))) ∧
    (reachedManager true sixFailures).retries.length ≤ 5 :=
  have hall : ∀ failed ∈ sixFailures, checkConnection failed = false := by decide
  ⟨⟨rfl, hall⟩,
    (reconnect_attempts_bounded true sixFailures (.threw "Failed to fetch")).2.1 rfl,
    ((reconnect_attempts_bounded true sixFailures (.threw "Failed to fetch")).2.2.2 hall).1⟩

/-- C7 as stated fails without `window.uiManager`: six failures in a row from a
new manager schedule five retries and then none, and no message is shown at
any point. -/
theorem six_failures_without_ui_manager_show_nothing :
    (∀ failed ∈ sixFailures, checkConnection failed = false) ∧
    (reachedManager false sixFailures).reconnectAttempts = 5 ∧
    (reachedManager false sixFailures).retries = [2000, 4000, 6000, 8000, 10000] ∧
    (reachedManager false sixFailures).notifications = [] := by
  decide

/-! ## C8 -/

/-- One call that carries an AI move: the line it writes and the two entries it appends. -/
theorem addMoveToHistory_with_ai (playerMove aiMove : String) (g : ChessGame)
    (hai : aiMove ≠ "") :
    (addMoveToHistory playerMove (some aiMove) g).playerColor = g.playerColor ∧
    (addMoveToHistory playerMove (some aiMove) g).moveHistory =
      g.moveHistory ++ [playerMove, aiMove] ∧
    (addMoveToHistory playerMove (some aiMove) g).moveList =
      g.moveList ++ ["<span>" ++
        ((if g.playerColor = "white" then
            toString (g.moveHistory.length / 2 + 1) ++ ". " ++ playerMove
          else if g.moveHistory.length % 2 = 0 then
            toString (g.moveHistory.length / 2 + 1) ++ ". ... " ++ playerMove
          else toString (g.moveHistory.length / 2 + 1) ++ ". " ++ playerMove) ++
          " " ++ aiMove) ++ "</span>"] := by
  have ht : truthy (some aiMove) = true := by simp [truthy, hai]
  refine ⟨rfl, ?_, ?_⟩
  · simp [addMoveToHistory, ht]
  · by_cases hw : g.playerColor = "white"
    · simp only [addMoveToHistory, ht, if_true, Option.getD_some, hw]
    · by_cases he : g.moveHistory.length % 2 = 0
      · simp only [addMoveToHistory, ht, if_true, Option.getD_some, hw, if_false, he]
      · simp only [addMoveToHistory, ht, if_true, Option.getD_some, hw, if_false, he]

theorem flatMap_pair_length :
    ∀ calls : List (String × String),
      (calls.flatMap (fun call => [call.1, call.2])).length = 2 * calls.length
  | [] => rfl
  | call :: calls => by
    rw [List.flatMap_cons, List.length_append, flatMap_pair_length calls]
    simp only [List.length_cons, List.length_nil]
    omega

theorem addMoves_fields :
    ∀ (calls : List (String × String)) (g : ChessGame), (∀ call ∈ calls, call.2 ≠ "") →
      (addMoves calls g).playerColor = g.playerColor ∧
      (addMoves calls g).moveHistory =
        g.moveHistory ++ calls.flatMap (fun call => [call.1, call.2])
  | [], g, _ => by simp [addMoves]
  | call :: calls, g, h => by
    have hc : call.2 ≠ "" := h call (List.mem_cons_self _ _)
    have hrest : ∀ c ∈ calls, c.2 ≠ "" := fun c hc => h c (List.mem_cons_of_mem _ hc)
    obtain ⟨a, b, _⟩ := addMoveToHistory_with_ai call.1 call.2 g hc
    obtain ⟨x, y⟩ := addMoves_fields calls (addMoveToHistory call.1 (some call.2) g) hrest
    have hstep : addMoves (call :: calls) g =
        addMoves calls (addMoveToHistory call.1 (some call.2) g) := rfl
    rw [hstep, x, y, a, b]
    simp

/-- C8: starting from an empty `moveHistory`, when each call carries an AI
move, the k-th call of `addMoveToHistory` (the one after `earlier`) writes the
line `k. <playerMove> <aiMove>` for a white player and
`k. ... <playerMove> <aiMove>` for a black one, and leaves `moveHistory` with
length 2k: the earlier entries followed by the player move and the AI move. -/
theorem addMoveToHistory_numbers_lines (g : ChessGame) (earlier : List (String × String))
    (playerMove aiMove : String)
    (hempty : g.moveHistory = []) (hearlier : ∀ call ∈ earlier, call.2 ≠ "")
    (hai : aiMove ≠ "") :
    (addMoveToHistory playerMove (some aiMove) (addMoves earlier g)).moveHistory =
      (addMoves earlier g).moveHistory ++ [playerMove, aiMove] ∧
    (addMoveToHistory playerMove (some aiMove) (addMoves earlier g)).moveHistory.length =
      2 * (earlier.length + 1) ∧
    (g.playerColor = "white" →
      (addMoveToHistory playerMove (some aiMove) (addMoves earlier g)).moveList =
        (addMoves earlier g).moveList ++
          ["<span>" ++ (toString (earlier.length + 1) ++ ". " ++ playerMove ++ " " ++ aiMove) ++
            "</span>"]) ∧
    (g.playerColor = "black" →
      (addMoveToHistory playerMove (some aiMove) (addMoves earlier g)).moveList =
        (addMoves earlier g).moveList ++
          ["<span>" ++
            (toString (earlier.length + 1) ++ ". ... " ++ playerMove ++ " " ++ aiMove) ++
            "</span>"]) := by
  obtain ⟨hcolor, hhist⟩ := addMoves_fields earlier g hearlier
  obtain ⟨_, b, c⟩ := addMoveToHistory_with_ai playerMove aiMove (addMoves earlier g) hai
  have hlen : (addMoves earlier g).moveHistory.length = 2 * earlier.length := by
    rw [hhist, hempty, List.nil_append, flatMap_pair_length]
  have hnum : (addMoves earlier g).moveHistory.length / 2 + 1 = earlier.length + 1 := by
    rw [hlen]; omega
  have hpar : (addMoves earlier g).moveHistory.length % 2 = 0 := by
    rw [hlen]; omega
  refine ⟨b, ?_, ?_, ?_⟩
  · rw [b, List.length_append, hlen]
    simp only [List.length_cons, List.length_nil]
    omega
  · intro hw
    rw [c, hcolor, hnum, if_pos hw]
  · intro hb
    have hw : g.playerColor ≠ "white" := by rw [hb]; decide
    rw [c, hcolor, hnum, if_neg hw, if_pos hpar]

theorem addMoveToHistory_numbers_lines_witness :
    (freshGame.moveHistory = [] ∧ (∀ call ∈ [("e2e4", "e7e5")], call.2 ≠ "") ∧ "b8c6" ≠ "" ∧
      freshGame.playerColor = "white") ∧
    ((addMoveToHistory "g1f3" (some "b8c6") (addMoves [("e2e4", "e7e5")] freshGame)).moveHistory =
      (addMoves [("e2e4", "e7e5")] freshGame).moveHistory ++ ["g1f3", "b8c6"] ∧
    (addMoveToHistory "g1f3" (some "b8c6")
      (addMoves [("e2e4", "e7e5")] freshGame)).moveHistory.length =
      2 * ([("e2e4", "e7e5")].length + 1) ∧
    (addMoveToHistory "g1f3" (some "b8c6") (addMoves [("e2e4", "e7e5")] freshGame)).moveList =
      (addMoves [("e2e4", "e7e5")] freshGame).moveList ++
        ["<span>" ++ (toString ([("e2e4", "e7e5")].length + 1) ++ ". " ++ "g1f3" ++ " " ++
          "b8c6") ++ "</span>"]) :=
  have h := addMoveToHistory_numbers_lines freshGame [("e2e4", "e7e5")] "g1f3" "b8c6"
    (by decide) (by decide) (by decide)
  ⟨⟨by decide, by decide, by decide, by decide⟩, h.1, h.2.1, h.2.2.1 (by decide)⟩


/-! ## C11 -/

theorem hasGameStateChanged_iff (gameInfo : GameInfo) (m : GameManager) :
    hasGameStateChanged gameInfo m = true ↔ statusDiffers m.gameState gameInfo := by
  unfold hasGameStateChanged statusDiffers
  cases m.gameState with
  | none => simp
  | some old => simp [or_assoc]

/-- C11: for every stored status and every fetched status `gameInfo`,
`syncGameState` returns, and it calls `loadGameState` (visible as one more
board request) if and only if a `ChessGame` exists and either no status was
stored or the new one differs from it in `fen`, `game_over` or `current_turn`;
otherwise the game is left as it was.  In every case the new status is stored,
so a second sync that fetches a status with the same three values does not
reload. -/
theorem syncGameState_reloads_iff_changed (env : Env) (gameInfo : GameInfo)
    (chessGame : Option ChessGame) (m : GameManager) :
    ∃ chessGame' : Option ChessGame,
      syncGameState env (.ok gameInfo) chessGame m =
        .ok (chessGame', { m with gameState := some gameInfo }) ∧
      ((∃ game, chessGame = some game ∧ chessGame' = some (loadGameState env game)) ↔
        (chessGame ≠ none ∧ statusDiffers m.gameState gameInfo)) ∧
      (¬ (chessGame ≠ none ∧ statusDiffers m.gameState gameInfo) → chessGame' = chessGame) ∧
      (∀ game, boardRequests (loadGameState env game).sent = boardRequests game.sent + 1) ∧
      (∀ (env' : Env) (again : GameInfo),
        again.fen = gameInfo.fen → again.game_over = gameInfo.game_over →
        again.current_turn = gameInfo.current_turn →
        syncGameState env' (.ok again) chessGame' { m with gameState := some gameInfo } =
          .ok (chessGame', { m with gameState := some again })) := by
  have hsecond : ∀ (env' : Env) (again : GameInfo) (current : Option ChessGame),
      again.fen = gameInfo.fen → again.game_over = gameInfo.game_over →
      again.current_turn = gameInfo.current_turn →
      syncGameState env' (.ok again) current { m with gameState := some gameInfo } =
        .ok (current, { m with gameState := some again }) := by
    intro env' again current h1 h2 h3
    have hsame : hasGameStateChanged again { m with gameState := some gameInfo } = false := by
      simp [hasGameStateChanged, h1, h2, h3]
    cases current with
    | none => rfl
    | some game => simp only [syncGameState, hsame, Bool.false_eq_true, if_false]
  have hloaded : ∀ game : ChessGame, loadGameState env game ≠ game := by
    intro game heq
    have h := loadGameState_boardRequests env game
    rw [heq] at h
    omega
  cases chessGame with
  | none =>
    refine ⟨none, rfl, ?_, fun _ => rfl, loadGameState_boardRequests env,
      fun env' again => hsecond env' again none⟩
    constructor
    · rintro ⟨game, hgame, _⟩
      exact Option.noConfusion hgame
    · rintro ⟨hne, _⟩
      exact absurd rfl hne
  | some game =>
    cases hchanged : hasGameStateChanged gameInfo m with
    | true =>
      have hdiff := (hasGameStateChanged_iff gameInfo m).mp hchanged
      refine ⟨some (loadGameState env game), ?_, ?_, ?_, loadGameState_boardRequests env,
        fun env' again => hsecond env' again _⟩
      · simp only [syncGameState, hchanged, if_true]
      · constructor
        · intro _
          exact ⟨fun h => Option.noConfusion h, hdiff⟩
        · intro _
          exact ⟨game, rfl, rfl⟩
      · intro hnot
        exact absurd ⟨fun h => Option.noConfusion h, hdiff⟩ hnot
    | false =>
      have hsame : ¬ statusDiffers m.gameState gameInfo := by
        intro hdiff
        have := (hasGameStateChanged_iff gameInfo m).mpr hdiff
        rw [hchanged] at this
        exact Bool.noConfusion this
      refine ⟨some game, ?_, ?_, fun _ => rfl, loadGameState_boardRequests env,
        fun env' again => hsecond env' again _⟩
      · simp only [syncGameState, hchanged, Bool.false_eq_true, if_false]
      · constructor
        · rintro ⟨game', hgame, hreload⟩
          have hg : game = game' := Option.some.inj hgame
          subst hg
          exact absurd (Option.some.inj hreload).symm (hloaded game)
        · rintro ⟨_, hdiff⟩
          exact absurd hdiff hsame

theorem syncGameState_reloads_iff_changed_witness :
    (some freshGame ≠ none ∧ statusDiffers GameManager.new.gameState sampleInfo) ∧
    ∃ chessGame' : Option ChessGame,
      syncGameState sampleEnv (.ok sampleInfo) (some freshGame) GameManager.new =
        .ok (chessGame', { GameManager.new with gameState := some sampleInfo }) ∧
      (∃ game, some freshGame = some game ∧ chessGame' = some (loadGameState sampleEnv game)) ∧
      syncGameState sampleEnv (.ok sampleInfo) chessGame'
          { GameManager.new with gameState := some sampleInfo } =
        .ok (chessGame', { GameManager.new with gameState := some sampleInfo }) :=
  have hcond : some freshGame ≠ none ∧ statusDiffers GameManager.new.gameState sampleInfo :=
    ⟨fun h => Option.noConfusion h, Or.inl rfl⟩
  match syncGameState_reloads_iff_changed sampleEnv sampleInfo (some freshGame)
      GameManager.new with
  | ⟨chessGame', hsync, hiff, _, _, hagain⟩ =>
    ⟨hcond, chessGame', hsync, hiff.mpr hcond, hagain sampleEnv sampleInfo rfl rfl rfl⟩


end ChessClient
